import Mathlib

/-!
Shallow embedding of `src/server.py`, a single-file MCP server exposing a
catalog of public-API adapters as tools and resources.

Modelling choices, used throughout:

* Decoded JSON payloads (the value `response.json()` returns) are `JValue`.
  Numbers carry an exact scaled decimal `m / 10 ^ e` together with a flag
  recording whether Python decoded the literal as a `float` or an `int`
  (`int`s keep `e = 0`).  Python floats are thus modelled as exact finite
  decimals; binary rounding and the scientific rendering of very large or
  very small floats are outside the model.
* Python exceptions are `PyErr`; fallible Python expressions are embedded
  as `Except PyErr`-valued functions mirroring Python dynamic typing
  (attribute access off a wrong type raises, and so on).
* Each outbound `client.get(url)` together with the following
  `response.json()` is one query to an `Upstream` oracle, which answers
  with either a decoded payload or a raised exception.  Adapters run in
  the `Eff` monad, which threads the oracle and records the list of URLs
  requested, so call-count properties are statements about the trace.
-/

set_option maxHeartbeats 1000000

set_option maxRecDepth 100000

/-- Decoded JSON as produced by `response.json()`.  A number is
`m / 10 ^ e` with `isFloat` recording Python `float` versus `int`. -/
inductive JValue where
  | null
  | bool (b : Bool)
  | num (m : Int) (e : Nat) (isFloat : Bool)
  | str (s : String)
  | arr (elems : List JValue)
  | obj (fields : List (String × JValue))

/-- Shorthand for a JSON/Python integer. -/
def jint (m : Int) : JValue := JValue.num m 0 false

/-- Python truthiness of a decoded JSON value. -/
def truthy : JValue → Bool
  | .null => false
  | .bool b => b
  | .num m _ _ => m != 0
  | .str s => s != ""
  | .arr xs => !xs.isEmpty
  | .obj fs => !fs.isEmpty

/-- A raised Python exception: its class and the text `str(e)` yields. -/
inductive PyErr where
  | attributeError (msg : String)
  | typeError (msg : String)
  | keyError (msg : String)
  | indexError (msg : String)
  | zeroDivisionError (msg : String)
  | httpError (msg : String)
deriving DecidableEq, Repr

/-- The text `str(e)` renders for an exception, as interpolated into the
adapters\x27 error messages. -/
def PyErr.toStr : PyErr → String
  | .attributeError m => m
  | .typeError m => m
  | .keyError m => m
  | .indexError m => m
  | .zeroDivisionError m => m
  | .httpError m => m

/-- Lookup in the association list modelling a Python dict (first match;
real dicts hold each key once). -/
def jLookup (fields : List (String × JValue)) (k : String) : Option JValue :=
  match fields with
  | [] => none
  | (k2, v) :: rest => if k2 = k then some v else jLookup rest k

/-- Decimal digits of a natural number, most significant first (auxiliary
loop on explicit fuel so that it is structural). -/
def digitsRev : Nat → Nat → List Nat
  | 0, _ => []
  | fuel+1, n => if n < 10 then [n] else n % 10 :: digitsRev fuel (n / 10)

/-- Decimal digits of `n`, most significant first. -/
def natDigits (n : Nat) : List Nat := (digitsRev (n+1) n).reverse

/-- One decimal digit as a character. -/
def digitChar : Nat → Char
  | 0 => '0' | 1 => '1' | 2 => '2' | 3 => '3' | 4 => '4'
  | 5 => '5' | 6 => '6' | 7 => '7' | 8 => '8' | 9 => '9'
  | _ => '*'

/-- Decimal rendering of a natural number, as Python renders an `int`. -/
def natRender (n : Nat) : String := String.mk ((natDigits n).map digitChar)

/-- Decimal rendering of an integer, as Python `str` of an `int`. -/
def intRender (m : Int) : String :=
  (if m < 0 then "-" else "") ++ natRender m.natAbs

/-- Left-pad a digit string with zeros to width `e`. -/
def padZeros (e : Nat) (s : String) : String :=
  String.mk (List.replicate (e - s.length) '0') ++ s

/-- Rendering of the float `m / 10 ^ e`, as Python `repr` of an exact
finite decimal (an integral float shows a trailing `.0`). -/
def decRender (m : Int) (e : Nat) : String :=
  let a := m.natAbs
  (if m < 0 then "-" else "") ++
    (if e = 0 then natRender a ++ ".0"
     else natRender (a / 10 ^ e) ++ "." ++ padZeros e (natRender (a % 10 ^ e)))

/-- Drop factors of ten from a scaled decimal until none remain or the
exponent is spent, i.e. put `m / 10 ^ e` in least terms over ten. -/
def normDecAux : Nat → Int → Nat → Int × Nat
  | 0, m, e => (m, e)
  | fuel+1, m, e =>
      if e = 0 then (m, e)
      else if m % 10 = 0 then normDecAux fuel (m / 10) (e - 1)
      else (m, e)

/-- Canonical form of the scaled decimal `m / 10 ^ e`. -/
def normDec (m : Int) (e : Nat) : Int × Nat := normDecAux e m e

/-- Numeric view of a value: Python treats `bool` as an `int` in
arithmetic and comparisons.  Yields `(m, e, isFloat)`. -/
def pyNumOf : JValue → Option (Int × Nat × Bool)
  | .bool b => some (if b then 1 else 0, 0, false)
  | .num m e f => some (m, e, f)
  | _ => none

/-- Value comparison of two scaled decimals: `m1 / 10 ^ e1 ≤ m2 / 10 ^ e2`. -/
def decLe (m1 : Int) (e1 : Nat) (m2 : Int) (e2 : Nat) : Bool :=
  m1 * 10 ^ e2 ≤ m2 * 10 ^ e1

/-- Exact sum of two scaled decimals. -/
def decAdd (m1 : Int) (e1 : Nat) (m2 : Int) (e2 : Nat) : Int × Nat :=
  let e := max e1 e2
  normDec (m1 * 10 ^ (e - e1) + m2 * 10 ^ (e - e2)) e

/-- Exact product of two scaled decimals. -/
def decMul (m1 : Int) (e1 : Nat) (m2 : Int) (e2 : Nat) : Int × Nat :=
  normDec (m1 * m2) (e1 + e2)

/-- Multiplicity of the factor `p` in `n` (fuel-structural). -/
def factorMultAux : Nat → Nat → Nat → Nat
  | 0, _, _ => 0
  | fuel+1, p, n =>
      if 2 ≤ p ∧ n ≠ 0 ∧ n % p = 0 then 1 + factorMultAux fuel p (n / p) else 0

/-- Multiplicity of the factor `p` in `n`. -/
def factorMult (p n : Nat) : Nat := factorMultAux n p n

/-- Exact quotient of two scaled decimals when it is again a finite
decimal (which covers every division the source performs: its only
divisor is the literal `5`); `none` otherwise. -/
def decDivExact (m1 : Int) (e1 : Nat) (m2 : Int) (e2 : Nat) : Option (Int × Nat) :=
  let a : Int := m1 * 10 ^ e2
  let b : Int := m2 * 10 ^ e1
  if b = 0 then none
  else
    let g : Int := Int.gcd a b
    let a2 := a / g
    let b2 := b / g
    let s : Int := if b2 < 0 then -1 else 1
    let a3 := s * a2
    let b3 := (s * b2).toNat
    let t2 := factorMult 2 b3
    let t5 := factorMult 5 b3
    if b3 = 2 ^ t2 * 5 ^ t5 then
      let e := max t2 t5
      some (normDec (a3 * (10 ^ e / b3)) e)
    else none

/-- Quotient of two scaled decimals.  When the exact quotient is not a
finite decimal (unreachable from the source, whose only divisor is `5`)
the model rounds to twelve decimal places, standing in for the binary
rounding of a real Python float. -/
def decDiv (m1 : Int) (e1 : Nat) (m2 : Int) (e2 : Nat) : Int × Nat :=
  match decDivExact m1 e1 m2 e2 with
  | some r => r
  | none =>
      let a : Int := m1 * 10 ^ (e2 + 12)
      let b : Int := m2 * 10 ^ e1
      if b = 0 then (0, 1) else normDec (a / b) 12

/-- Round half to even of `a / b` for positive `b`, on naturals. -/
def natRoundHalfEven (a b : Nat) : Nat :=
  let q := a / b
  let r := a % b
  if 2 * r < b then q
  else if 2 * r > b then q + 1
  else if q % 2 = 0 then q else q + 1

/-- Round half to even of the scaled decimal `m / 10 ^ e` times `10 ^ k`
to an integer: the rounding `f"{x:.1f}"` performs at `k = 1`. -/
def decRoundAt (m : Int) (e : Nat) (k : Nat) : Int :=
  let sign : Int := if m < 0 then -1 else 1
  sign * (natRoundHalfEven (m.natAbs * 10 ^ k) (10 ^ e) : Int)

/-- The text `f"{x:.1f}"` renders for the number `m / 10 ^ e`. -/
def fmtFixed1 (m : Int) (e : Nat) : String :=
  let n := decRoundAt m e 1
  (if n < 0 then "-" else "") ++
    natRender (n.natAbs / 10) ++ "." ++ natRender (n.natAbs % 10)

/-- Rendering of a number as Python `str` shows it: the stored integer
for an `int`, the decimal with its point (and a trailing `.0` when
integral) for a `float`. -/
def numRender (m : Int) (e : Nat) (isFloat : Bool) : String :=
  if isFloat then decRender m e else intRender m

mutual

/-- The text `str(v)` (equivalently `f"{v}"`) renders for a value:
strings appear bare, `None`/`True`/`False` as Python spells them, and
containers through their `repr`. -/
def pyToStr : JValue → String
  | .null => "None"
  | .bool b => if b then "True" else "False"
  | .num m e f => numRender m e f
  | .str s => s
  | .arr xs => "[" ++ pyReprList xs ++ "]"
  | .obj fs => "\x7b" ++ pyReprFields fs ++ "\x7d"

/-- Comma-joined `repr`s of list elements (strings quoted). -/
def pyReprList : List JValue → String
  | [] => ""
  | [x] => pyReprElem x
  | x :: y :: xs => pyReprElem x ++ ", " ++ pyReprList (y :: xs)

/-- Comma-joined `repr`s of dict entries. -/
def pyReprFields : List (String × JValue) → String
  | [] => ""
  | [(k, v)] => "\x27" ++ k ++ "\x27: " ++ pyReprElem v
  | (k, v) :: f :: fs =>
      "\x27" ++ k ++ "\x27: " ++ pyReprElem v ++ ", " ++ pyReprFields (f :: fs)

/-- Python `repr` of a value inside a container: like `str`, except that
strings are quoted. -/
def pyReprElem : JValue → String
  | .str s => "\x27" ++ s ++ "\x27"
  | .null => "None"
  | .bool b => if b then "True" else "False"
  | .num m e f => numRender m e f
  | .arr xs => "[" ++ pyReprList xs ++ "]"
  | .obj fs => "\x7b" ++ pyReprFields fs ++ "\x7d"

end


/-- Python `str.title()`: the first letter of each alphabetic run is
uppercased and the rest lowercased. -/
def titleAux : Bool → List Char → List Char
  | _, [] => []
  | prev, c :: cs =>
      if c.isAlpha then (if prev then c.toLower else c.toUpper) :: titleAux true cs
      else c :: titleAux false cs

/-- Python `str.title()`. -/
def strTitle (s : String) : String := String.mk (titleAux false s.data)

/-- `v.get(k, d)`: field access with a default; off a non-dict the
attribute lookup raises. -/
def pyGetD : JValue → String → JValue → Except PyErr JValue
  | .obj fs, k, d => .ok ((jLookup fs k).getD d)
  | _, _, _ => .error (.attributeError "object has no attribute get")

/-- `v.get(k)`: single-argument `get`, defaulting to `None`. -/
def pyGetOpt (v : JValue) (k : String) : Except PyErr JValue := pyGetD v k .null

/-- `v[k]` for a string key: missing keys raise `KeyError`, non-dicts
`TypeError`. -/
def pyItem : JValue → String → Except PyErr JValue
  | .obj fs, k =>
      match jLookup fs k with
      | some v => .ok v
      | none => .error (.keyError k)
  | _, _ => .error (.typeError "object is not subscriptable by a string")

/-- `v[i]` for a non-negative index, on lists and strings. -/
def pyIndex : JValue → Nat → Except PyErr JValue
  | .arr xs, i =>
      match xs.get? i with
      | some v => .ok v
      | none => .error (.indexError "list index out of range")
  | .str s, i =>
      match s.data.get? i with
      | some c => .ok (.str (String.mk [c]))
      | none => .error (.indexError "string index out of range")
  | _, _ => .error (.typeError "object is not subscriptable")

/-- `s * n` string repetition. -/
def strRepeat (s : String) (n : Int) : String :=
  String.join (List.replicate n.toNat s)

/-- Python `*`. -/
def pyMul (a b : JValue) : Except PyErr JValue :=
  match pyNumOf a, pyNumOf b with
  | some (m1, e1, f1), some (m2, e2, f2) =>
      let r := decMul m1 e1 m2 e2
      .ok (.num r.1 r.2 (f1 || f2))
  | _, _ =>
      match a, b with
      | .str s, .num n 0 false => .ok (.str (strRepeat s n))
      | .num n 0 false, .str s => .ok (.str (strRepeat s n))
      | _, _ => .error (.typeError "unsupported operand type(s) for *")

/-- Python `/` (true division: the result is a float; a zero divisor
raises). -/
def pyDiv (a b : JValue) : Except PyErr JValue :=
  match pyNumOf a, pyNumOf b with
  | some (m1, e1, _), some (m2, e2, _) =>
      if m2 = 0 then .error (.zeroDivisionError "division by zero")
      else
        let r := decDiv m1 e1 m2 e2
        .ok (.num r.1 r.2 true)
  | _, _ => .error (.typeError "unsupported operand type(s) for /")

/-- Python `+`. -/
def pyAdd (a b : JValue) : Except PyErr JValue :=
  match pyNumOf a, pyNumOf b with
  | some (m1, e1, f1), some (m2, e2, f2) =>
      let r := decAdd m1 e1 m2 e2
      .ok (.num r.1 r.2 (f1 || f2))
  | _, _ =>
      match a, b with
      | .str s, .str t => .ok (.str (s ++ t))
      | .arr xs, .arr ys => .ok (.arr (xs ++ ys))
      | _, _ => .error (.typeError "unsupported operand type(s) for +")

/-- Python `min(a, b)`: the first argument on ties; comparing a number
with a non-number raises. -/
def pyMin (a b : JValue) : Except PyErr JValue :=
  match pyNumOf a, pyNumOf b with
  | some (m1, e1, _), some (m2, e2, _) =>
      .ok (if decLe m1 e1 m2 e2 then a else b)
  | _, _ =>
      match a, b with
      | .str s, .str t => .ok (.str (if s ≤ t then s else t))
      | _, _ => .error (.typeError "comparison not supported between instances")

/-- Python `len`. -/
def pyLen : JValue → Except PyErr Nat
  | .str s => .ok s.length
  | .arr xs => .ok xs.length
  | .obj fs => .ok fs.length
  | _ => .error (.typeError "object has no len()")

/-- The slice `l[:n]` of a list, with the Python treatment of a negative
bound. -/
def listSliceTo (xs : List α) (n : Int) : List α :=
  if 0 ≤ n then xs.take n.toNat else xs.take (xs.length - (-n).toNat)

/-- `v[:n]` for a constant integer bound, on lists and strings. -/
def pySliceTo : JValue → Int → Except PyErr JValue
  | .arr xs, n => .ok (.arr (listSliceTo xs n))
  | .str s, n => .ok (.str (String.mk (listSliceTo s.data n)))
  | _, _ => .error (.typeError "object is not subscriptable")

/-- `v[:k]` where the bound is itself a Python value: only integers (and
bools) are accepted as slice indices. -/
def pySliceByJ (v k : JValue) : Except PyErr JValue :=
  match k with
  | .bool b => pySliceTo v (if b then 1 else 0)
  | .num n 0 false => pySliceTo v n
  | .num n (e+1) false => pySliceTo v (n * 10 ^ (e+1))
  | _ => .error (.typeError "slice indices must be integers or None")

/-- Iteration over a Python value: lists yield elements, strings their
characters, dicts their keys. -/
def pyIterate : JValue → Except PyErr (List JValue)
  | .arr xs => .ok xs
  | .str s => .ok (s.data.map (fun c => .str (String.mk [c])))
  | .obj fs => .ok (fs.map (fun f => .str f.1))
  | _ => .error (.typeError "object is not iterable")

/-- `sep.join(vs)`: every item must be a string. -/
def pyJoin (sep : String) (vs : List JValue) : Except PyErr String := do
  let ss ← vs.mapM (fun v => match v with
    | .str s => .ok s
    | _ => Except.error (.typeError "sequence item: expected str instance"))
  pure (String.intercalate sep ss)

/-- Membership `k in v` for a string needle: key membership on dicts,
element equality on lists, substring on strings. -/
def strLeads : List Char → List Char → Bool
  | [], _ => true
  | _ :: _, [] => false
  | c :: cs, d :: ds => c = d && strLeads cs ds

/-- Does `sub` occur contiguously inside `l`? -/
def hasSegment (sub : List Char) : List Char → Bool
  | [] => sub.isEmpty
  | c :: rest => strLeads sub (c :: rest) || hasSegment sub rest

/-- Does the string `t` contain `sub` as a contiguous substring? -/
def strContainsB (t sub : String) : Bool := hasSegment sub.data t.data

/-- Membership `k in v` (and its negation) as the source uses it with a
string literal on the left. -/
def pyInKey (k : String) : JValue → Except PyErr Bool
  | .obj fs => .ok (jLookup fs k).isSome
  | .arr xs => .ok (xs.any fun x => match x with | .str s => s = k | _ => false)
  | .str s => .ok (strContainsB s k)
  | _ => .error (.typeError "argument of type is not iterable")

/-- `v.lower()`, yielding the lowercased text; non-strings raise. -/
def pyLowerS : JValue → Except PyErr String
  | .str s => .ok s.toLower
  | _ => .error (.attributeError "object has no attribute lower")

/-- The characters Python `str.strip()` removes. -/
def pyWsChar (c : Char) : Bool :=
  c = ' ' || c = '\t' || c = '\n' || c = '\r' || c = '\x0b' || c = '\x0c'

/-- Python `str.strip()`: drop whitespace from both ends. -/
def stripStr (s : String) : String :=
  String.mk (((s.data.dropWhile pyWsChar).reverse.dropWhile pyWsChar).reverse)

/-- `v.strip()`. -/
def pyStrip : JValue → Except PyErr JValue
  | .str s => .ok (.str (stripStr s))
  | _ => .error (.attributeError "object has no attribute strip")

/-- One result item: `TextContent(type="text", text=...)`. -/
structure TextContent where
  type : String
  text : String
deriving DecidableEq, Repr

/-- The `TextContent(type="text", text=t)` constructor calls the source
makes. -/
def mkText (t : String) : TextContent := ⟨"text", t⟩

/-- Behaviour of the upstream APIs: for each URL, the outcome of the GET
request together with `response.json()` — a decoded payload, or a raised
`httpx`/JSON exception. -/
structure Upstream where
  fetch : String → Except PyErr JValue

/-- Server computations: thread the upstream oracle, record the URLs
requested (in order), and propagate Python exceptions. -/
def Eff (α : Type) : Type := Upstream → List String → Except PyErr α × List String

instance : Monad Eff where
  pure a := fun _ tr => (.ok a, tr)
  bind m f := fun o tr =>
    match m o tr with
    | (.ok a, tr2) => f a o tr2
    | (.error e, tr2) => (.error e, tr2)

/-- Embed a fallible pure Python expression. -/
def liftE (e : Except PyErr α) : Eff α := fun _ tr => (e, tr)

/-- `await client.get(url)` followed by `response.json()`: one oracle
query, recorded in the trace whether it succeeds or raises. -/
def httpGet (url : String) : Eff JValue := fun o tr => (o.fetch url, tr ++ [url])

/-- `try: body except Exception as e: handler e`. -/
def pyTry (body : Eff α) (handler : PyErr → Eff α) : Eff α := fun o tr =>
  match body o tr with
  | (.ok a, tr2) => (.ok a, tr2)
  | (.error e, tr2) => handler e o tr2

/-- Run a server computation against an oracle, from an empty trace. -/
def Eff.run (m : Eff α) (o : Upstream) : Except PyErr α × List String := m o []

/-- The `arguments` dict of a tool call: string keys to decoded values. -/
def Args : Type := List (String × JValue)

/-- `arguments.get(k, d)`. -/
def argsGetD (args : Args) (k : String) (d : JValue) : JValue :=
  (jLookup args k).getD d

/-- URL of the geocoding lookup for `get_weather`. -/
def geoUrl (city : String) : String :=
  "https://geocoding-api.open-meteo.com/v1/search?name=" ++ city

/-- URL of the forecast request for `get_weather`. -/
def forecastUrl (lat lon : String) : String :=
  "https://api.open-meteo.com/v1/forecast?latitude=" ++ lat ++ "&longitude=" ++ lon
    ++ "&current_weather=true&hourly=temperature_2m,precipitation&timezone=auto"

/-- Body of the `get_weather` branch of `call_tool` (the part inside its
`try`). -/
def getWeatherBody (city : JValue) : Eff (List TextContent) := do
  let geoData ← httpGet (geoUrl (pyToStr city))
  let results ← liftE (pyGetOpt geoData "results")
  if truthy results then do
    let rlist ← liftE (pyItem geoData "results")
    let result ← liftE (pyIndex rlist 0)
    let lat ← liftE (pyItem result "latitude")
    let lon ← liftE (pyItem result "longitude")
    let country ← liftE (pyGetD result "country" (.str ""))
    let weatherData ← httpGet (forecastUrl (pyToStr lat) (pyToStr lon))
    let current ← liftE (pyGetD weatherData "current_weather" (.obj []))
    let tempC ← liftE (pyGetD current "temperature" (jint 0))
    let t9 ← liftE (pyMul tempC (jint 9))
    let t95 ← liftE (pyDiv t9 (jint 5))
    let tempF ← liftE (pyAdd t95 (jint 32))
    let tempF1 ← liftE (match pyNumOf tempF with
      | some (m, e, _) => .ok (fmtFixed1 m e)
      | none => Except.error (.typeError "unsupported format string passed"))
    let wind ← liftE (pyGetD current "windspeed" (.str "N/A"))
    let winddir ← liftE (pyGetD current "winddirection" (.str "N/A"))
    let time ← liftE (pyGetD current "time" (.str "N/A"))
    pure [mkText ("🌤️ Weather in " ++ pyToStr city ++ ", " ++ pyToStr country
      ++ "\n\n🌡️ Temperature: " ++ pyToStr tempC ++ "°C (" ++ tempF1 ++ "°F)"
      ++ "\n💨 Wind Speed: " ++ pyToStr wind ++ " km/h"
      ++ "\n🧭 Wind Direction: " ++ pyToStr winddir ++ "°"
      ++ "\n⏰ Time: " ++ pyToStr time)]
  else
    pure [mkText ("❌ City \x27" ++ pyToStr city
      ++ "\x27 not found. Please check the spelling.")]

/-- The `get_weather` branch of `call_tool`. -/
def get_weather (args : Args) : Eff (List TextContent) :=
  let city := argsGetD args "city" (.str "New York")
  pyTry (getWeatherBody city)
    (fun e => pure [mkText ("❌ Error getting weather data: " ++ e.toStr)])

/-- URL of the programming-joke request. -/
def progJokeUrl : String := "https://official-joke-api.appspot.com/jokes/programming/random"

/-- URL of the dad-joke request. -/
def dadJokeUrl : String := "https://icanhazdadjoke.com/"

/-- URL of the general random-joke request. -/
def randomJokeUrl : String := "https://official-joke-api.appspot.com/random_joke"

/-- The setup/punchline rendering shared by the non-dad joke paths. -/
def jokeRender (jt : String) (joke : JValue) : Except PyErr (List TextContent) := do
  let setup ← pyGetD joke "setup" (.str "")
  let punchline ← pyGetD joke "punchline" (.str "")
  pure [mkText ("😂 " ++ strTitle jt ++ " Joke:\n\n" ++ pyToStr setup
    ++ "\n\n" ++ pyToStr punchline)]

/-- Body of the `get_random_joke` branch (inside its `try`), after the
joke type has been lowercased. -/
def getRandomJokeBody (jt : String) : Eff (List TextContent) := do
  if jt = "programming" then
    let jokes ← httpGet progJokeUrl
    let joke ← if truthy jokes then liftE (pyIndex jokes 0) else pure (.obj [])
    liftE (jokeRender jt joke)
  else if jt = "dad" then
    let data2 ← httpGet dadJokeUrl
    let j ← liftE (pyGetD data2 "joke"
      (.str "Why don\x27t scientists trust atoms? Because they make up everything!"))
    pure [mkText ("😄 Dad Joke:\n\n" ++ pyToStr j)]
  else
    let joke ← httpGet randomJokeUrl
    liftE (jokeRender jt joke)

/-- The `get_random_joke` branch of `call_tool`.  The `.lower()` on the
`type` argument happens before the `try`, so it can raise out of the
adapter. -/
def get_random_joke (args : Args) : Eff (List TextContent) := do
  let jt ← liftE (pyLowerS (argsGetD args "type" (.str "general")))
  pyTry (getRandomJokeBody jt)
    (fun e => pure [mkText ("❌ Couldn\x27t fetch a joke: " ++ e.toStr)])

/-- URL of the random-fact request. -/
def factUrl : String := "https://uselessfacts.jsph.pl/random.json?language=en"

/-- The `get_random_fact` branch of `call_tool` (it reads no arguments). -/
def get_random_fact : Eff (List TextContent) :=
  pyTry (do
    let factData ← httpGet factUrl
    let t ← liftE (pyGetD factData "text"
      (.str "Did you know? Octopuses have three hearts!"))
    pure [mkText ("🤓 Random Fact:\n\n" ++ pyToStr t)])
    (fun e => pure [mkText ("❌ Couldn\x27t fetch a fact: " ++ e.toStr)])

/-- Base URL of the NASA APOD request. -/
def apodBaseUrl : String := "https://api.nasa.gov/planetary/apod?api_key=DEMO_KEY"

/-- The URL the `get_nasa_apod` branch requests: the base URL, plus a
`&date=` query when the `date` argument is truthy. -/
def apodUrlOf (args : Args) : String :=
  let dateParam := argsGetD args "date" (.str "")
  if truthy dateParam then apodBaseUrl ++ "&date=" ++ pyToStr dateParam
  else apodBaseUrl

/-- The `get_nasa_apod` branch of `call_tool`. -/
def get_nasa_apod (args : Args) : Eff (List TextContent) :=
  let url := apodUrlOf args
  pyTry (do
    let data2 ← httpGet url
    let hasError ← liftE (pyInKey "error" data2)
    if hasError = false then do
      let explan ← liftE (pyGetD data2 "explanation" (.str "No description available"))
      let n ← liftE (pyLen explan)
      let explan ← if n > 400 then do
          let h ← liftE (pySliceTo explan 400)
          liftE (pyAdd h (.str "..."))
        else pure explan
      let date ← liftE (pyGetD data2 "date" (.str "Today"))
      let title ← liftE (pyGetD data2 "title" (.str "Amazing Space Image"))
      let u ← liftE (pyGetD data2 "url" (.str "N/A"))
      let hd ← liftE (pyGetD data2 "hdurl" (.str "Same as above"))
      pure [mkText ("🚀 NASA APOD - " ++ pyToStr date ++ "\n\n✨ " ++ pyToStr title
        ++ "\n\n📝 " ++ pyToStr explan ++ "\n\n🔗 Image URL: " ++ pyToStr u
        ++ "\n🔗 HD URL: " ++ pyToStr hd)]
    else do
      let errv ← liftE (pyGetD data2 "error" (.obj []))
      let msg ← liftE (pyGetD errv "message" (.str "Unknown error"))
      pure [mkText ("❌ NASA API Error: " ++ pyToStr msg)])
    (fun e => pure [mkText ("❌ Error fetching NASA APOD: " ++ e.toStr)])

/-- URL of the MusicBrainz artist search. -/
def artistUrl (nameText : String) : String :=
  "https://musicbrainz.org/ws/2/artist/?query=" ++ nameText ++ "&fmt=json&limit=3"

/-- The `search_spotify_artist` branch of `call_tool`. -/
def search_spotify_artist (args : Args) : Eff (List TextContent) :=
  let artistName := argsGetD args "artist_name" (.str "")
  pyTry (do
    let data2 ← httpGet (artistUrl (pyToStr artistName))
    let artists ← liftE (pyGetOpt data2 "artists")
    if truthy artists then do
      let alist ← liftE (pyItem data2 "artists")
      let artist ← liftE (pyIndex alist 0)
      let nm ← liftE (pyGetD artist "name" (.str "Unknown"))
      let info1 := "🎵 Artist: " ++ pyToStr nm ++ "\n\n"
      let dis ← liftE (pyGetOpt artist "disambiguation")
      let info2 ← if truthy dis then do
          let d ← liftE (pyItem artist "disambiguation")
          pure (info1 ++ "🏷️ Type: " ++ pyToStr d ++ "\n")
        else pure info1
      let ctry ← liftE (pyGetOpt artist "country")
      let info3 ← if truthy ctry then do
          let c ← liftE (pyItem artist "country")
          pure (info2 ++ "🌍 Country: " ++ pyToStr c ++ "\n")
        else pure info2
      let ls ← liftE (pyGetD artist "life-span" (.obj []))
      let beginOpt ← liftE (pyGetOpt ls "begin")
      let info4 ← if truthy beginOpt then do
          let ls2 ← liftE (pyItem artist "life-span")
          let b ← liftE (pyItem ls2 "begin")
          let ls3 ← liftE (pyItem artist "life-span")
          let e2 ← liftE (pyGetD ls3 "end" (.str "present"))
          pure (info3 ++ "📅 Active: " ++ pyToStr b ++ " - " ++ pyToStr e2 ++ "\n")
        else pure info3
      let tags ← liftE (pyGetOpt artist "tags")
      let info5 ← if truthy tags then do
          let tl ← liftE (pyItem artist "tags")
          let t3 ← liftE (pySliceTo tl 3)
          let items ← liftE (pyIterate t3)
          let genres ← liftE (items.mapM (fun t => pyItem t "name"))
          let g ← liftE (pyJoin ", " genres)
          pure (info4 ++ "🎼 Genres: " ++ g ++ "\n")
        else pure info4
      let score ← liftE (pyGetD artist "score" (jint 0))
      pure [mkText (info5 ++ "⭐ Score: " ++ pyToStr score ++ "/100")]
    else
      pure [mkText ("🔍 No artist found for \x27" ++ pyToStr artistName
        ++ "\x27. Try a different name or spelling.")])
    (fun e => pure [mkText ("❌ Error searching for artist: " ++ e.toStr)])

/-- URL of the TheMealDB recipe search. -/
def recipesUrl (q : String) : String :=
  "https://www.themealdb.com/api/json/v1/1/search.php?s=" ++ q

/-- One pass of the ingredient loop: `strIngredient{i}`/`strMeasure{i}`,
kept when the ingredient is truthy and strips to something truthy. -/
def ingLine (meal : JValue) (i : Nat) : Except PyErr (Option String) := do
  let ingredient ← pyGetOpt meal ("strIngredient" ++ natRender i)
  let measure ← pyGetOpt meal ("strMeasure" ++ natRender i)
  if truthy ingredient then do
    let stripped ← pyStrip ingredient
    if truthy stripped then do
      let mv ← pyStrip (if truthy measure then measure else .str "")
      pure (some (stripStr ("• " ++ pyToStr mv ++ " " ++ pyToStr ingredient)))
    else pure none
  else pure none

/-- The ingredient list the loop over `range(1, 21)` collects. -/
def ingredientsOf (meal : JValue) : Except PyErr (List String) := do
  let ls ← (List.range 20).mapM (fun j => ingLine meal (j + 1))
  pure (ls.filterMap id)

/-- The `search_recipes` branch of `call_tool` (the `diet` argument is
read but never used by the source). -/
def search_recipes (args : Args) : Eff (List TextContent) :=
  let query := argsGetD args "query" (.str "")
  pyTry (do
    let data2 ← httpGet (recipesUrl (pyToStr query))
    let meals ← liftE (pyGetOpt data2 "meals")
    if truthy meals then do
      let mlist ← liftE (pyItem data2 "meals")
      let meal ← liftE (pyIndex mlist 0)
      let ingredients ← liftE (ingredientsOf meal)
      let nm ← liftE (pyGetD meal "strMeal" (.str "Delicious Dish"))
      let cat ← liftE (pyGetD meal "strCategory" (.str "N/A"))
      let area ← liftE (pyGetD meal "strArea" (.str "International"))
      let info1 := "🍳 Recipe: " ++ pyToStr nm ++ "\n\n🏷️ Category: " ++ pyToStr cat
        ++ "\n🌍 Origin: " ++ pyToStr area ++ "\n\n"
      let info2 := if ingredients.isEmpty then info1
        else info1 ++ "📋 Ingredients:\n"
          ++ String.intercalate "\n" (ingredients.take 10) ++ "\n\n"
      let instrs ← liftE (pyGetD meal "strInstructions" (.str "Instructions not available"))
      let n ← liftE (pyLen instrs)
      let instrs ← if n > 300 then do
          let h ← liftE (pySliceTo instrs 300)
          liftE (pyAdd h (.str "..."))
        else pure instrs
      let info3 := info2 ++ "👩‍🍳 Instructions:\n" ++ pyToStr instrs ++ "\n\n"
      let yt ← liftE (pyGetOpt meal "strYoutube")
      let info4 ← if truthy yt then do
          let y ← liftE (pyItem meal "strYoutube")
          pure (info3 ++ "📺 Video: " ++ pyToStr y ++ "\n")
        else pure info3
      let thumb ← liftE (pyGetOpt meal "strMealThumb")
      let info5 ← if truthy thumb then do
          let t ← liftE (pyItem meal "strMealThumb")
          pure (info4 ++ "🖼️ Image: " ++ pyToStr t)
        else pure info4
      pure [mkText info5]
    else
      pure [mkText ("🔍 No recipes found for \x27" ++ pyToStr query
        ++ "\x27. Try searching for common dishes like \x27pasta\x27, \x27chicken\x27, \x27cake\x27, etc.")])
    (fun e => pure [mkText ("❌ Error searching recipes: " ++ e.toStr)])

/-- URL of the Open Library book search (the limit interpolated as text). -/
def booksUrl (q lim : String) : String :=
  "https://openlibrary.org/search.json?q=" ++ q ++ "&limit=" ++ lim

/-- The per-book rendering of the `search_books` loop body, at 1-based
index `idx`. -/
def renderBook (idx : Nat) (book : JValue) : Except PyErr String := do
  let title ← pyGetD book "title" (.str "Unknown Title")
  let authors ← pyGetD book "author_name" (.arr [.str "Unknown Author"])
  let pubYear ← pyGetD book "first_publish_year" (.str "Unknown")
  let a2 ← pySliceTo authors 2
  let aItems ← pyIterate a2
  let aj ← pyJoin ", " aItems
  let base := natRender idx ++ ". 📖 " ++ pyToStr title
    ++ "\n   ✍️ By: " ++ aj ++ "\n   📅 Published: " ++ pyToStr pubYear ++ "\n"
  let isbn ← pyGetOpt book "isbn"
  let base2 ← if truthy isbn then do
      let iv ← pyItem book "isbn"
      let i0 ← pyIndex iv 0
      pure (base ++ "   📄 ISBN: " ++ pyToStr i0 ++ "\n")
    else pure base
  let subj ← pyGetOpt book "subject"
  let base3 ← if truthy subj then do
      let sv ← pyItem book "subject"
      let s3 ← pySliceTo sv 3
      let sItems ← pyIterate s3
      let sj ← pyJoin ", " sItems
      pure (base2 ++ "   🏷️ Subjects: " ++ sj ++ "\n")
    else pure base2
  pure (base3 ++ "\n")

/-- The part of the `search_books` branch after its GET: render up to
`limitJ` of the returned docs, or the no-books message.  Note the limit
reaching this point is `min(arguments.get("limit", 5), 10)` — computed
before the `try`, with no lower clamp. -/
def booksAfterFetch (query limitJ data2 : JValue) : Eff (List TextContent) := do
  let docsOpt ← liftE (pyGetOpt data2 "docs")
  if truthy docsOpt then do
    let docs ← liftE (pyItem data2 "docs")
    let n ← liftE (pyLen docs)
    let sliced ← liftE (pySliceByJ docs limitJ)
    let entries ← liftE (pyIterate sliced)
    let bs ← liftE (entries.enum.mapM (fun p => renderBook (p.1 + 1) p.2))
    let booksInfo := "📚 Found " ++ natRender n ++ " books for \x27" ++ pyToStr query
      ++ "\x27:\n\n" ++ String.join bs
    pure [mkText (stripStr booksInfo)]
  else
    pure [mkText ("📚 No books found for \x27" ++ pyToStr query
      ++ "\x27. Try different keywords or author names.")]

/-- The `search_books` branch of `call_tool`, continuing with
`booksAfterFetch` once the payload is decoded. -/
def search_books (args : Args) : Eff (List TextContent) := do
  let query := argsGetD args "query" (.str "")
  let limitJ ← liftE (pyMin (argsGetD args "limit" (jint 5)) (jint 10))
  pyTry (do
    let data2 ← httpGet (booksUrl (pyToStr query) (pyToStr limitJ))
    booksAfterFetch query limitJ data2)
    (fun e => pure [mkText ("❌ Error searching books: " ++ e.toStr)])

/-- The tool dispatch of `call_tool`: route by name, with the trailing
`Unknown tool` fallback. -/
def call_tool (name : String) (args : Args) : Eff (List TextContent) :=
  if name = "get_weather" then get_weather args
  else if name = "get_random_joke" then get_random_joke args
  else if name = "get_random_fact" then get_random_fact
  else if name = "get_nasa_apod" then get_nasa_apod args
  else if name = "search_spotify_artist" then search_spotify_artist args
  else if name = "search_recipes" then search_recipes args
  else if name = "search_books" then search_books args
  else pure [mkText ("❌ Unknown tool: " ++ name)]

/-- One lowercase hexadecimal digit. -/
def hexDigit : Nat → Char
  | 0 => '0' | 1 => '1' | 2 => '2' | 3 => '3' | 4 => '4' | 5 => '5' | 6 => '6'
  | 7 => '7' | 8 => '8' | 9 => '9' | 10 => 'a' | 11 => 'b' | 12 => 'c'
  | 13 => 'd' | 14 => 'e' | 15 => 'f' | _ => '*'

/-- Four lowercase hex digits of `n < 0x10000`, as in a `\u` escape. -/
def hex4 (n : Nat) : List Char :=
  [hexDigit (n / 4096 % 16), hexDigit (n / 256 % 16),
   hexDigit (n / 16 % 16), hexDigit (n % 16)]

/-- How `json.dumps` (with its default `ensure_ascii=True`) emits one
character of a string: the two-character short escapes, `\u` escapes for
other control and non-ASCII characters (a surrogate pair beyond the
basic plane), and the character itself otherwise. -/
def escChar (c : Char) : List Char :=
  if c = '"' then ['\\', '"']
  else if c = '\\' then ['\\', '\\']
  else if c = '\n' then ['\\', 'n']
  else if c = '\t' then ['\\', 't']
  else if c = '\r' then ['\\', 'r']
  else if c = '\x08' then ['\\', 'b']
  else if c = '\x0c' then ['\\', 'f']
  else if c.toNat < 0x20 then '\\' :: 'u' :: hex4 c.toNat
  else if c.toNat < 0x7f then [c]
  else if c.toNat < 0x10000 then '\\' :: 'u' :: hex4 c.toNat
  else ('\\' :: 'u' :: hex4 (0xD800 + (c.toNat - 0x10000) / 0x400))
    ++ ('\\' :: 'u' :: hex4 (0xDC00 + (c.toNat - 0x10000) % 0x400))

/-- The escaped body of a JSON string literal. -/
def escList : List Char → List Char
  | [] => []
  | c :: cs => escChar c ++ escList cs

/-- A JSON string literal, quotes included. -/
def jstrDump (s : String) : List Char := '"' :: escList s.data ++ ['"']

/-- `n` spaces of indentation. -/
def spaces (n : Nat) : List Char := List.replicate n ' '

mutual

/-- Text `json.dumps(v, indent=2)` emits for `v` at indent level `ind`
(a non-empty container opens, breaks onto indented lines, and closes on
a line at the enclosing level; empty containers stay inline). -/
def jdump (ind : Nat) : JValue → List Char
  | .null => "null".data
  | .bool b => if b then "true".data else "false".data
  | .num m e f => (numRender m e f).data
  | .str s => jstrDump s
  | .arr [] => "[]".data
  | .arr (x :: xs) =>
      '[' :: '\n' :: spaces (ind + 2)
        ++ jdumpElems (ind + 2) (x :: xs) ++ '\n' :: spaces ind ++ [']']
  | .obj [] => "\x7b\x7d".data
  | .obj (f :: fs) =>
      '\x7b' :: '\n' :: spaces (ind + 2)
        ++ jdumpFields (ind + 2) (f :: fs) ++ '\n' :: spaces ind ++ ['\x7d']

/-- Elements of a non-empty array, separated by `,\n` plus indentation
(the first element's indentation is emitted by the caller). -/
def jdumpElems (ind : Nat) : List JValue → List Char
  | [] => []
  | [x] => jdump ind x
  | x :: y :: xs =>
      jdump ind x ++ ',' :: '\n' :: spaces ind ++ jdumpElems (ind) (y :: xs)

/-- Entries of a non-empty object, `"key": value` separated by `,\n`
plus indentation. -/
def jdumpFields (ind : Nat) : List (String × JValue) → List Char
  | [] => []
  | [(k, v)] => jstrDump k ++ ':' :: ' ' :: jdump ind v
  | (k, v) :: g :: fs =>
      jstrDump k ++ ':' :: ' ' :: jdump ind v
        ++ ',' :: '\n' :: spaces ind ++ jdumpFields ind (g :: fs)

end


/-- `json.dumps(v, indent=2)`. -/
def jsonDumps (v : JValue) : String := String.mk (jdump 0 v)

/-- URL the `weather://current` resource fetches. -/
def weatherResUrl : String :=
  "https://api.open-meteo.com/v1/forecast?latitude=40.7128&longitude=-74.0060&current_weather=true"

/-- URL the `nasa://apod` resource fetches. -/
def nasaResUrl : String := "https://api.nasa.gov/planetary/apod?api_key=DEMO_KEY"

/-- URL the `jokes://random` resource fetches. -/
def jokesResUrl : String := "https://official-joke-api.appspot.com/random_joke"

/-- `read_resource`: fetch the fixed URL for a known URI and re-serialize
the decoded payload with `json.dumps(..., indent=2)`; unknown URIs answer
`Resource not found` without fetching.  There is no `try` here, so a
raised exception propagates to the caller. -/
def read_resource (uri : String) : Eff String :=
  if uri = "weather://current" then do
    let v ← httpGet weatherResUrl
    pure (jsonDumps v)
  else if uri = "nasa://apod" then do
    let v ← httpGet nasaResUrl
    pure (jsonDumps v)
  else if uri = "jokes://random" then do
    let v ← httpGet jokesResUrl
    pure (jsonDumps v)
  else pure "Resource not found"

/-- An upstream oracle whose every request yields decoded `null`
(a stand-in arbitrary environment for closed counterexamples). -/
def oracleNull : Upstream := ⟨fun _ => .ok .null⟩

/-- Geocoding payload of the mocked Paris example. -/
def geoParisPayload : JValue := .obj [("results", .arr [.obj
  [("latitude", .num 4885 2 true), ("longitude", .num 235 2 true),
   ("country", .str "France")]])]

/-- Forecast payload of the mocked Paris example: current weather with
temperature 15. -/
def forecastParisPayload : JValue :=
  .obj [("current_weather", .obj [("temperature", jint 15)])]

/-- The mocked upstream of the Paris example. -/
def oracleParis : Upstream :=
  ⟨fun u =>
    if u = geoUrl "Paris" then .ok geoParisPayload
    else if u = forecastUrl "48.85" "2.35" then .ok forecastParisPayload
    else .error (.httpError "ConnectError")⟩

/-- An upstream whose geocoding lookup for `Nowhereville` reports no
matches. -/
def oracleNowhere : Upstream :=
  ⟨fun u => if u = geoUrl "Nowhereville" then .ok (.obj [("results", .arr [])])
            else .error (.httpError "ConnectError")⟩

/-! Trace-preservation helpers: computations built without `httpGet`
leave the request trace unchanged. -/

/-- `m` issues no requests: running it leaves the trace as it was. -/
def keepsTrace (m : Eff α) : Prop := ∀ o tr, (m o tr).2 = tr

/-- An upstream answering every search with a successful empty-match
payload. -/
def oracleEmptyMatches : Upstream :=
  ⟨fun u =>
    if u = artistUrl "Zzz" then .ok (.obj [("artists", .arr [])])
    else if u = recipesUrl "Zzz" then .ok (.obj [])
    else if u = booksUrl "Zzz" "5" then .ok (.obj [("docs", .arr [])])
    else .error (.httpError "ConnectError")⟩

/-- An upstream that always raises a connection error. -/
def oracleDown : Upstream := ⟨fun _ => .error (.httpError "ConnectError")⟩

/-- An upstream whose book search at `limit=0` succeeds with one doc. -/
def oracleBooksOne : Upstream :=
  ⟨fun u => if u = booksUrl "x" "0" then .ok (.obj [("docs", .arr [.obj []])])
            else .error (.httpError "ConnectError")⟩

/-- An upstream answering the book search at `limit=10` with twelve
docs. -/
def oracleBooksTwelve : Upstream :=
  ⟨fun u => if u = booksUrl "x" "10" then .ok (.obj [("docs", .arr (List.replicate 12 (.obj [])))])
            else .error (.httpError "ConnectError")⟩

/-- An upstream whose APOD explanation is 401 characters long and whose
recipe search for `pie` finds one meal with short instructions. -/
def oracleTruncation : Upstream :=
  ⟨fun u =>
    if u = apodBaseUrl then
      .ok (.obj [("explanation", .str (String.mk (List.replicate 401 'a')))])
    else if u = recipesUrl "pie" then
      .ok (.obj [("meals", .arr [.obj [("strInstructions", .str "Mix.")]])])
    else .error (.httpError "ConnectError")⟩

/-! Machinery for C1: adapter bodies only ever succeed with non-empty
result lists, and a `try` with a message-producing handler always
succeeds. -/

/-- Every successful outcome of `m` is a non-empty result list. -/
def okNonempty (m : Eff (List TextContent)) : Prop :=
  ∀ o tr l tr2, m o tr = (.ok l, tr2) → l ≠ []

/-- Schema conformance of the `type` argument of `get_random_joke`:
absent or a string (as the declared input schema types it). -/
def argOkStr : Option JValue → Bool
  | none => true
  | some (.str _) => true
  | _ => false

/-- Schema conformance of the `limit` argument of `search_books`:
absent or a number (or bool, which Python compares like an int). -/
def argOkNum : Option JValue → Bool
  | none => true
  | some (.num _ _ _) => true
  | some (.bool _) => true
  | _ => false

/-- Arguments conforming to the declared input schemas, for the two
tools that touch an argument before entering their `try`. -/
def schemaOk (name : String) (args : Args) : Bool :=
  if name = "get_random_joke" then argOkStr (jLookup args "type")
  else if name = "search_books" then argOkNum (jLookup args "limit")
  else true

/-! A JSON reader for C7, following the specification sentence that the
text `read_resource` returns parses back to exactly the upstream value:
`parseJson` is the parsing relation of that sentence, written against
the same `JValue` data model. -/

/-- JSON whitespace. -/
def isWsChar (c : Char) : Bool := c = ' ' || c = '\n' || c = '\t' || c = '\r'

/-- Drop leading JSON whitespace. -/
def skipWs (l : List Char) : List Char := l.dropWhile isWsChar

/-- Numeric value of a decimal digit character. -/
def digitVal (c : Char) : Nat := c.toNat - 48

/-- Split a maximal run of decimal digits off the front of the input. -/
def digitSpan : List Char → List Nat × List Char
  | [] => ([], [])
  | c :: cs =>
      if c.isDigit then
        let p := digitSpan cs
        (digitVal c :: p.1, p.2)
      else ([], c :: cs)

/-- Value of a most-significant-first digit list. -/
def digitsVal (ds : List Nat) : Nat := ds.foldl (fun a d => a * 10 + d) 0

/-- Read an unsigned JSON number: digits, then an optional fraction;
floats are put in the canonical scaled-decimal form. -/
def parseNumPos (l : List Char) : Option ((Int × Nat × Bool) × List Char) :=
  match digitSpan l with
  | ([], _) => none
  | (ds, r) =>
    match r with
    | '.' :: r2 =>
      (match digitSpan r2 with
       | ([], _) => none
       | (fs, r3) =>
          let p := normDec ((digitsVal ds : Int) * 10 ^ fs.length + (digitsVal fs : Int))
            fs.length
          some ((p.1, p.2, true), r3))
    | _ => some (((digitsVal ds : Int), 0, false), r)

/-- Read a JSON number, sign included. -/
def parseNum (l : List Char) : Option (JValue × List Char) :=
  match l with
  | '-' :: r => (parseNumPos r).map (fun p => (JValue.num (-p.1.1) p.1.2.1 p.1.2.2, p.2))
  | _ => (parseNumPos l).map (fun p => (JValue.num p.1.1 p.1.2.1 p.1.2.2, p.2))

/-- Value of a hexadecimal digit character, either case. -/
def hexVal (c : Char) : Option Nat :=
  if c.isDigit then some (c.toNat - 48)
  else if 'a' ≤ c ∧ c ≤ 'f' then some (c.toNat - 87)
  else if 'A' ≤ c ∧ c ≤ 'F' then some (c.toNat - 55)
  else none

/-- Value of four hexadecimal digits. -/
def hexVal4 (a b c d : Char) : Option Nat :=
  match hexVal a, hexVal b, hexVal c, hexVal d with
  | some x, some y, some z, some w => some (x * 4096 + y * 256 + z * 16 + w)
  | _, _, _, _ => none

/-- Read the body of a JSON string after its opening quote, decoding
escapes, combining surrogate pairs, and rejecting lone surrogates. -/
def parseStrBody : Nat → List Char → List Char → Option (String × List Char)
  | 0, _, _ => none
  | fuel+1, l, acc =>
    match l with
    | [] => none
    | '"' :: r => some (String.mk acc.reverse, r)
    | '\\' :: e :: r =>
      (match e with
       | '"' => parseStrBody fuel r ('"' :: acc)
       | '\\' => parseStrBody fuel r ('\\' :: acc)
       | '/' => parseStrBody fuel r ('/' :: acc)
       | 'n' => parseStrBody fuel r ('\n' :: acc)
       | 't' => parseStrBody fuel r ('\t' :: acc)
       | 'r' => parseStrBody fuel r ('\r' :: acc)
       | 'b' => parseStrBody fuel r ('\x08' :: acc)
       | 'f' => parseStrBody fuel r ('\x0c' :: acc)
       | 'u' =>
         (match r with
          | a :: b :: c :: d :: r2 =>
            (match hexVal4 a b c d with
             | none => none
             | some n =>
               if 0xD800 ≤ n ∧ n < 0xDC00 then
                 match r2 with
                 | '\\' :: 'u' :: a2 :: b2 :: c2 :: d2 :: r3 =>
                   (match hexVal4 a2 b2 c2 d2 with
                    | some m2 =>
                      if 0xDC00 ≤ m2 ∧ m2 < 0xE000 then
                        parseStrBody fuel r3
                          (Char.ofNat (0x10000 + (n - 0xD800) * 0x400 + (m2 - 0xDC00)) :: acc)
                      else none
                    | none => none)
                 | _ => none
               else if 0xDC00 ≤ n ∧ n < 0xE000 then none
               else parseStrBody fuel r2 (Char.ofNat n :: acc))
          | _ => none)
       | _ => none)
    | c :: r => parseStrBody fuel r (c :: acc)

mutual

/-- Read one JSON value (fuelled; `parseJson` supplies ample fuel). -/
def parseVal : Nat → List Char → Option (JValue × List Char)
  | 0, _ => none
  | fuel+1, l =>
    match l with
    | 'n' :: 'u' :: 'l' :: 'l' :: r => some (.null, r)
    | 't' :: 'r' :: 'u' :: 'e' :: r => some (.bool true, r)
    | 'f' :: 'a' :: 'l' :: 's' :: 'e' :: r => some (.bool false, r)
    | '"' :: r => (parseStrBody (r.length + 1) r []).map (fun p => (JValue.str p.1, p.2))
    | '[' :: r =>
      (match skipWs r with
       | ']' :: r2 => some (.arr [], r2)
       | r2 => (parseElems fuel r2).map (fun p => (JValue.arr p.1, p.2)))
    | '\x7b' :: r =>
      (match skipWs r with
       | '\x7d' :: r2 => some (.obj [], r2)
       | r2 => (parseFields fuel r2).map (fun p => (JValue.obj p.1, p.2)))
    | _ => parseNum l

/-- Read the elements of a non-empty array, commas between, up to the
closing bracket. -/
def parseElems : Nat → List Char → Option (List JValue × List Char)
  | 0, _ => none
  | fuel+1, l =>
    match parseVal fuel l with
    | none => none
    | some (v, r) =>
      match skipWs r with
      | ',' :: r2 =>
        (match parseElems fuel (skipWs r2) with
         | some (vs, r3) => some (v :: vs, r3)
         | none => none)
      | ']' :: r2 => some ([v], r2)
      | _ => none

/-- Read the entries of a non-empty object, up to the closing brace. -/
def parseFields : Nat → List Char → Option (List (String × JValue) × List Char)
  | 0, _ => none
  | fuel+1, l =>
    match l with
    | '"' :: r =>
      (match parseStrBody (r.length + 1) r [] with
       | some (k, r2) =>
         (match skipWs r2 with
          | ':' :: r3 =>
            (match parseVal fuel (skipWs r3) with
             | some (v, r4) =>
               (match skipWs r4 with
                | ',' :: r5 =>
                  (match parseFields fuel (skipWs r5) with
                   | some (fs2, r6) => some ((k, v) :: fs2, r6)
                   | none => none)
                | '\x7d' :: r5 => some ([(k, v)], r5)
                | _ => none)
             | none => none)
          | _ => none)
       | none => none)
    | _ => none

end


/-- Parse a complete JSON document: one value, whitespace around it. -/
def parseJson (s : String) : Option JValue :=
  let l := skipWs s.data
  match parseVal (l.length + 1) l with
  | some (v, r) => if skipWs r = [] then some v else none
  | none => none

mutual

/-- The payloads in the model\x27s canonical form: every float is a
scaled decimal in least terms over ten, every int has exponent zero
(the forms `response.json()` actually produces, floats being exact
finite decimals in this model). -/
def jnormal : JValue → Bool
  | .null => true
  | .bool _ => true
  | .num m e f => if f then (e == 0 || m % 10 != 0) else e == 0
  | .str _ => true
  | .arr xs => jnormalList xs
  | .obj fs => jnormalFields fs

/-- `jnormal` over the elements of an array. -/
def jnormalList : List JValue → Bool
  | [] => true
  | x :: xs => jnormal x && jnormalList xs

/-- `jnormal` over the values of an object. -/
def jnormalFields : List (String × JValue) → Bool
  | [] => true
  | (_, v) :: fs => jnormal v && jnormalFields fs

end


mutual

/-- A size measure on values that bounds the fuel the reader needs. -/
def jweight : JValue → Nat
  | .null => 1
  | .bool _ => 1
  | .num _ _ _ => 1
  | .str _ => 1
  | .arr xs => 1 + jweightList xs
  | .obj fs => 1 + jweightFields fs

/-- `jweight` summed over the elements of an array. -/
def jweightList : List JValue → Nat
  | [] => 0
  | x :: xs => 1 + jweight x + jweightList xs

/-- `jweight` summed over the entries of an object. -/
def jweightFields : List (String × JValue) → Nat
  | [] => 0
  | (_, v) :: fs => 1 + jweight v + jweightFields fs

end


/-- Little-endian value of a digit list (spec-side helper for proofs). -/
def valLE : List Nat → Nat
  | [] => 0
  | d :: ds => d + 10 * valLE ds

/-- No digit character opens `rest` (so a digit span stops there). -/
def headNotDigit : List Char → Prop
  | [] => True
  | c :: _ => c.isDigit = false

/-- The input after a number neither continues its digits nor opens a
fraction. -/
def numBoundary : List Char → Prop
  | [] => True
  | c :: _ => c.isDigit = false ∧ c ≠ '.'

/-- The input does not open with whitespace. -/
def headNotWs : List Char → Prop
  | [] => False
  | c :: _ => isWsChar c = false

/-- A concrete canonical payload exercising every JSON shape: object,
array, string with an escape, float, int, bool and null. -/
def resPayload : JValue := .obj
  [("temperature", .num 155 1 true), ("ok", .bool true),
   ("tags", .arr [.str "a\nb", .null, jint 3])]

/-- An upstream that answers every request with `resPayload`. -/
def oracleRes : Upstream := ⟨fun _ => .ok resPayload⟩

/-! Basic unfolding lemmas for running `Eff` computations. -/

/-- Running a bind: run the first computation, then feed its result on. -/
theorem effBind_run (m : Eff α) (f : α → Eff β) (o : Upstream) (tr : List String) :
    (m >>= f) o tr =
      match m o tr with
      | (.ok a, tr2) => f a o tr2
      | (.error e, tr2) => (.error e, tr2) := rfl

/-- Running a pure value changes nothing. -/
theorem effPure_run (a : α) (o : Upstream) (tr : List String) :
    (pure a : Eff α) o tr = (.ok a, tr) := rfl

/-- C9: For the number-fact tool (`get_random_fact` in the source), a
`fact_type` argument outside `{trivia, math, date, year}` behaves exactly
as if it were `trivia`: the adapter reads no arguments at all, so the
trace and result agree for any `fact_type` value whatsoever, with no
error result introduced by the argument. -/
theorem call_tool_fact_type_ignored (args : Args) (v : JValue) (o : Upstream) :
    (call_tool "get_random_fact" (("fact_type", v) :: args)).run o =
      (call_tool "get_random_fact" (("fact_type", .str "trivia") :: args)).run o := rfl

/-- C3: `get_weather(city="Paris")` against a geocoder answering
latitude 48.85, longitude 2.35, country France, and a forecast answering
temperature 15, returns a single text mentioning `Paris, France`, `15°C`
and the one-decimal Fahrenheit conversion `59.0°F` (15 · 9 / 5 + 32). -/
theorem call_tool_weather_paris_example :
    (call_tool "get_weather" [("city", .str "Paris")]).run oracleParis =
      (.ok [mkText ("🌤️ Weather in Paris, France\n\n🌡️ Temperature: 15°C (59.0°F)"
          ++ "\n💨 Wind Speed: N/A km/h\n🧭 Wind Direction: N/A°\n⏰ Time: N/A")],
        [geoUrl "Paris", forecastUrl "48.85" "2.35"])
    ∧ strContainsB ("🌤️ Weather in Paris, France\n\n🌡️ Temperature: 15°C (59.0°F)"
          ++ "\n💨 Wind Speed: N/A km/h\n🧭 Wind Direction: N/A°\n⏰ Time: N/A")
        "Paris, France" = true
    ∧ strContainsB ("🌤️ Weather in Paris, France\n\n🌡️ Temperature: 15°C (59.0°F)"
          ++ "\n💨 Wind Speed: N/A km/h\n🧭 Wind Direction: N/A°\n⏰ Time: N/A")
        "15°C" = true
    ∧ strContainsB ("🌤️ Weather in Paris, France\n\n🌡️ Temperature: 15°C (59.0°F)"
          ++ "\n💨 Wind Speed: N/A km/h\n🧭 Wind Direction: N/A°\n⏰ Time: N/A")
        "59.0°F" = true :=
  ⟨rfl, by decide, by decide, by decide⟩

/-- C2: a `get_weather` call whose geocoding response holds no `results`
entries returns the single `not found` text naming the city, and the
trace shows exactly one request — the geocoding URL — so the forecast
call is never issued. -/
theorem call_tool_weather_unknown_city_short_circuit
    (args : Args) (o : Upstream) (city : JValue) (fs : List (String × JValue))
    (hcity : argsGetD args "city" (.str "New York") = city)
    (hfetch : o.fetch (geoUrl (pyToStr city)) = .ok (.obj fs))
    (hres : jLookup fs "results" = none ∨ jLookup fs "results" = some (.arr [])) :
    (call_tool "get_weather" args).run o =
      (.ok [mkText ("❌ City \x27" ++ pyToStr city
         ++ "\x27 not found. Please check the spelling.")],
       [geoUrl (pyToStr city)]) := by
  subst hcity
  rcases hres with h | h <;>
    simp [call_tool, get_weather, Eff.run, pyTry, getWeatherBody, effBind_run,
      liftE, httpGet, hfetch, pyGetOpt, pyGetD, h, truthy, effPure_run]

/-- Witness for C2 at the concrete city `Nowhereville`. -/
theorem call_tool_weather_unknown_city_short_circuit_witness :
    (call_tool "get_weather" [("city", .str "Nowhereville")]).run oracleNowhere =
      (.ok [mkText ("❌ City \x27Nowhereville\x27 not found. Please check the spelling.")],
       [geoUrl "Nowhereville"]) := by
  have h := call_tool_weather_unknown_city_short_circuit
    [("city", .str "Nowhereville")] oracleNowhere (.str "Nowhereville")
    [("results", .arr [])] rfl rfl (Or.inr rfl)
  simpa using h

/-- Pure values issue no requests. -/
theorem keepsTrace_pure (a : α) : keepsTrace (pure a : Eff α) := fun _ _ => rfl

/-- Lifted pure Python expressions issue no requests. -/
theorem keepsTrace_liftE (e : Except PyErr α) : keepsTrace (liftE e) := fun _ _ => rfl

/-- A bind of request-free computations is request-free. -/
theorem keepsTrace_bind {m : Eff α} {f : α → Eff β}
    (hm : keepsTrace m) (hf : ∀ a, keepsTrace (f a)) : keepsTrace (m >>= f) := by
  intro o tr
  rcases hmo : m o tr with ⟨r, tr2⟩
  have h : tr2 = tr := by
    have h2 := hm o tr
    rw [hmo] at h2
    exact h2
  rw [h] at hmo
  cases r with
  | ok a => simpa [effBind_run, hmo] using hf a o tr
  | error e => simp [effBind_run, hmo]

/-- The post-fetch part of `search_books` issues no further requests. -/
theorem keepsTrace_booksAfterFetch (q l d : JValue) :
    keepsTrace (booksAfterFetch q l d) := by
  unfold booksAfterFetch
  apply keepsTrace_bind (keepsTrace_liftE _)
  intro docsOpt
  split
  · apply keepsTrace_bind (keepsTrace_liftE _)
    intro docs
    apply keepsTrace_bind (keepsTrace_liftE _)
    intro n
    apply keepsTrace_bind (keepsTrace_liftE _)
    intro sliced
    apply keepsTrace_bind (keepsTrace_liftE _)
    intro entries
    apply keepsTrace_bind (keepsTrace_liftE _)
    intro bs
    exact keepsTrace_pure _
  · exact keepsTrace_pure _

/-- C4: when `search_spotify_artist`, `search_recipes` or `search_books`
gets a successful upstream response whose `artists`/`meals`/`docs`
field is absent or an empty list, `call_tool` returns the single
informational text naming the query rather than an empty collection. -/
theorem call_tool_zero_matches_single_item :
    (∀ (args : Args) (o : Upstream) (q : JValue) (fs : List (String × JValue)),
      argsGetD args "artist_name" (.str "") = q →
      o.fetch (artistUrl (pyToStr q)) = .ok (.obj fs) →
      (jLookup fs "artists" = none ∨ jLookup fs "artists" = some (.arr [])) →
      (call_tool "search_spotify_artist" args).run o =
        (.ok [mkText ("🔍 No artist found for \x27" ++ pyToStr q
           ++ "\x27. Try a different name or spelling.")], [artistUrl (pyToStr q)]))
  ∧ (∀ (args : Args) (o : Upstream) (q : JValue) (fs : List (String × JValue)),
      argsGetD args "query" (.str "") = q →
      o.fetch (recipesUrl (pyToStr q)) = .ok (.obj fs) →
      (jLookup fs "meals" = none ∨ jLookup fs "meals" = some (.arr [])) →
      (call_tool "search_recipes" args).run o =
        (.ok [mkText ("🔍 No recipes found for \x27" ++ pyToStr q
           ++ "\x27. Try searching for common dishes like \x27pasta\x27, \x27chicken\x27, \x27cake\x27, etc.")],
         [recipesUrl (pyToStr q)]))
  ∧ (∀ (args : Args) (o : Upstream) (q lim : JValue) (fs : List (String × JValue)),
      argsGetD args "query" (.str "") = q →
      pyMin (argsGetD args "limit" (jint 5)) (jint 10) = .ok lim →
      o.fetch (booksUrl (pyToStr q) (pyToStr lim)) = .ok (.obj fs) →
      (jLookup fs "docs" = none ∨ jLookup fs "docs" = some (.arr [])) →
      (call_tool "search_books" args).run o =
        (.ok [mkText ("📚 No books found for \x27" ++ pyToStr q
           ++ "\x27. Try different keywords or author names.")],
         [booksUrl (pyToStr q) (pyToStr lim)])) := by
  refine ⟨?_, ?_, ?_⟩
  · intro args o q fs hq hfetch hres
    subst hq
    rcases hres with h | h <;>
      simp [call_tool, search_spotify_artist, Eff.run, pyTry, effBind_run,
        liftE, httpGet, hfetch, pyGetOpt, pyGetD, h, truthy, effPure_run]
  · intro args o q fs hq hfetch hres
    subst hq
    rcases hres with h | h <;>
      simp [call_tool, search_recipes, Eff.run, pyTry, effBind_run,
        liftE, httpGet, hfetch, pyGetOpt, pyGetD, h, truthy, effPure_run]
  · intro args o q lim fs hq hlim hfetch hres
    subst hq
    rcases hres with h | h <;>
      simp [call_tool, search_books, booksAfterFetch, Eff.run, pyTry, effBind_run,
        liftE, httpGet, hlim, hfetch, pyGetOpt, pyGetD, h, truthy, effPure_run]

/-- Witness for C4 at the concrete query `Zzz` for all three tools. -/
theorem call_tool_zero_matches_single_item_witness :
    (call_tool "search_spotify_artist" [("artist_name", .str "Zzz")]).run oracleEmptyMatches =
      (.ok [mkText "🔍 No artist found for \x27Zzz\x27. Try a different name or spelling."],
       [artistUrl "Zzz"])
    ∧ (call_tool "search_recipes" [("query", .str "Zzz")]).run oracleEmptyMatches =
      (.ok [mkText ("🔍 No recipes found for \x27Zzz\x27. "
         ++ "Try searching for common dishes like \x27pasta\x27, \x27chicken\x27, \x27cake\x27, etc.")],
       [recipesUrl "Zzz"])
    ∧ (call_tool "search_books" [("query", .str "Zzz")]).run oracleEmptyMatches =
      (.ok [mkText "📚 No books found for \x27Zzz\x27. Try different keywords or author names."],
       [booksUrl "Zzz" "5"]) := by
  refine ⟨?_, ?_, ?_⟩
  · have h := call_tool_zero_matches_single_item.1 [("artist_name", .str "Zzz")]
      oracleEmptyMatches (.str "Zzz") [("artists", .arr [])] rfl rfl (Or.inr rfl)
    simpa using h
  · have h := call_tool_zero_matches_single_item.2.1 [("query", .str "Zzz")]
      oracleEmptyMatches (.str "Zzz") [] rfl rfl (Or.inl rfl)
    simpa using h
  · have h := call_tool_zero_matches_single_item.2.2 [("query", .str "Zzz")]
      oracleEmptyMatches (.str "Zzz") (jint 5) [("docs", .arr [])] rfl rfl rfl (Or.inr rfl)
    simpa using h

/-- C10: `read_resource` wraps no handler around its fetches: an
upstream exception at any of the three known URIs propagates out
unconverted (after the single recorded request), while an unknown URI
answers the plain `Resource not found` without issuing any request. -/
theorem read_resource_no_handler :
    (∀ (o : Upstream) (e : PyErr), o.fetch weatherResUrl = .error e →
      (read_resource "weather://current").run o = (.error e, [weatherResUrl]))
  ∧ (∀ (o : Upstream) (e : PyErr), o.fetch nasaResUrl = .error e →
      (read_resource "nasa://apod").run o = (.error e, [nasaResUrl]))
  ∧ (∀ (o : Upstream) (e : PyErr), o.fetch jokesResUrl = .error e →
      (read_resource "jokes://random").run o = (.error e, [jokesResUrl]))
  ∧ (∀ (o : Upstream) (uri : String),
      uri ≠ "weather://current" → uri ≠ "nasa://apod" → uri ≠ "jokes://random" →
      (read_resource uri).run o = (.ok "Resource not found", [])) := by
  refine ⟨?_, ?_, ?_, ?_⟩
  · intro o e hfetch
    simp [read_resource, Eff.run, effBind_run, httpGet, hfetch]
  · intro o e hfetch
    simp [read_resource, Eff.run, effBind_run, httpGet, hfetch]
  · intro o e hfetch
    simp [read_resource, Eff.run, effBind_run, httpGet, hfetch]
  · intro o uri h1 h2 h3
    simp [read_resource, Eff.run, h1, h2, h3, effPure_run]

/-- Witness for C10: a downed upstream makes each known URI propagate
the error, and an unknown URI answers without a request. -/
theorem read_resource_no_handler_witness :
    (read_resource "weather://current").run oracleDown =
      (.error (.httpError "ConnectError"), [weatherResUrl])
    ∧ (read_resource "nasa://apod").run oracleDown =
      (.error (.httpError "ConnectError"), [nasaResUrl])
    ∧ (read_resource "jokes://random").run oracleDown =
      (.error (.httpError "ConnectError"), [jokesResUrl])
    ∧ (read_resource "weather://stale").run oracleDown = (.ok "Resource not found", []) :=
  ⟨read_resource_no_handler.1 oracleDown _ rfl,
   read_resource_no_handler.2.1 oracleDown _ rfl,
   read_resource_no_handler.2.2.1 oracleDown _ rfl,
   read_resource_no_handler.2.2.2 oracleDown "weather://stale"
     (by decide) (by decide) (by decide)⟩

/-- C5 counterexample: with `limit=0` the upstream query is issued with
`limit=0` — not the claimed clamp of the limit into 1–10, which would
give `limit=1` — and the rendered list shows zero books.  So the limit
is not clamped from below. -/
theorem call_tool_books_limit_zero_not_clamped :
    (call_tool "search_books" [("query", .str "x"), ("limit", jint 0)]).run oracleBooksOne =
      (.ok [mkText "📚 Found 1 books for \x27x\x27:"], [booksUrl "x" "0"])
    ∧ booksUrl "x" "0" ≠ booksUrl "x" "1" :=
  ⟨rfl, by decide⟩

/-- The request trace of a `search_books` call is the single books URL,
carrying the query and whatever limit `min(limit, 10)` produced. -/
theorem search_books_trace (args : Args) (o : Upstream) (lim : JValue)
    (hlim : pyMin (argsGetD args "limit" (jint 5)) (jint 10) = .ok lim) :
    ((call_tool "search_books" args).run o).2 =
      [booksUrl (pyToStr (argsGetD args "query" (.str ""))) (pyToStr lim)] := by
  have hct : call_tool "search_books" args = search_books args := rfl
  rw [hct]
  rcases hfo : o.fetch (booksUrl (pyToStr (argsGetD args "query" (.str ""))) (pyToStr lim))
    with e | v
  · simp [search_books, Eff.run, effBind_run, liftE, hlim, pyTry, httpGet, hfo, effPure_run]
  · have hk := keepsTrace_booksAfterFetch (argsGetD args "query" (.str "")) lim v
    rcases hbo : booksAfterFetch (argsGetD args "query" (.str "")) lim v o
        [booksUrl (pyToStr (argsGetD args "query" (.str ""))) (pyToStr lim)]
      with ⟨res, tr2⟩
    have htr : tr2 = [booksUrl (pyToStr (argsGetD args "query" (.str ""))) (pyToStr lim)] := by
      have h2 := hk o [booksUrl (pyToStr (argsGetD args "query" (.str ""))) (pyToStr lim)]
      rw [hbo] at h2
      exact h2
    subst htr
    cases res with
    | ok l =>
        simp [search_books, Eff.run, effBind_run, liftE, hlim, pyTry, httpGet, hfo, hbo]
    | error e =>
        simp [search_books, Eff.run, effBind_run, liftE, hlim, pyTry, httpGet, hfo, hbo,
          effPure_run]

/-- C5 as amended: the limit `search_books` uses for the upstream query
(and the slice) is `min(limit, 10)` — clamped from above at 10 only,
with no lower clamp — defaulting to 5 when absent; in particular
`limit=15` queries with `limit=10` and renders at most 10 books (the
tenth entry appears, an eleventh never does). -/
theorem call_tool_books_limit_min_ten :
    (∀ (args : Args) (o : Upstream) (m : Int),
      jLookup args "limit" = some (jint m) →
      ((call_tool "search_books" args).run o).2 =
        [booksUrl (pyToStr (argsGetD args "query" (.str ""))) (intRender (min m 10))])
  ∧ (∀ (args : Args) (o : Upstream),
      jLookup args "limit" = none →
      ((call_tool "search_books" args).run o).2 =
        [booksUrl (pyToStr (argsGetD args "query" (.str ""))) (intRender 5)])
  ∧ (∃ t : String,
      (call_tool "search_books" [("query", .str "x"), ("limit", jint 15)]).run
          oracleBooksTwelve =
        (.ok [mkText t], [booksUrl "x" "10"])
      ∧ strContainsB t "10. 📖" = true ∧ strContainsB t "11. 📖" = false) := by
  refine ⟨?_, ?_, ?_⟩
  · intro args o m hlim
    by_cases hm : m ≤ 10
    · have h := search_books_trace args o (jint m)
        (by simp [argsGetD, hlim, pyMin, pyNumOf, jint, decLe, hm])
      rw [h]
      simp [jint, pyToStr, numRender, min_eq_left hm]
    · have h := search_books_trace args o (jint 10)
        (by simp [argsGetD, hlim, pyMin, pyNumOf, jint, decLe, hm])
      rw [h]
      simp [jint, pyToStr, numRender, min_eq_right (le_of_lt (lt_of_not_le hm))]
  · intro args o hlim
    have h := search_books_trace args o (jint 5)
      (by simp [argsGetD, hlim, pyMin, pyNumOf, jint, decLe])
    rw [h]
    simp [jint, pyToStr, numRender]
  · exact ⟨_, rfl, by decide, by decide⟩

/-- Witness for C5 as amended: `limit=7` queries with `limit=7`,
`limit=15` with `limit=10`, and an absent limit with the default `5`. -/
theorem call_tool_books_limit_min_ten_witness :
    ((call_tool "search_books" [("query", .str "x"), ("limit", jint 7)]).run oracleDown).2 =
      [booksUrl "x" (intRender (min 7 10))]
    ∧ ((call_tool "search_books" [("query", .str "x"), ("limit", jint 15)]).run oracleDown).2 =
      [booksUrl "x" (intRender (min 15 10))]
    ∧ ((call_tool "search_books" [("query", .str "x")]).run oracleDown).2 =
      [booksUrl "x" (intRender 5)] := by
  refine ⟨?_, ?_, ?_⟩
  · have h := call_tool_books_limit_min_ten.1 [("query", .str "x"), ("limit", jint 7)]
      oracleDown 7 rfl
    simpa using h
  · have h := call_tool_books_limit_min_ten.1 [("query", .str "x"), ("limit", jint 15)]
      oracleDown 15 rfl
    simpa using h
  · have h := call_tool_books_limit_min_ten.2.1 [("query", .str "x")] oracleDown rfl
    simpa using h

/-- Rendering a Python string with `str` gives the string itself. -/
theorem pyToStr_str (s : String) : pyToStr (.str s) = s := rfl

/-- C6: long text fields are truncated at a fixed ceiling with an
ellipsis: `get_nasa_apod` renders an explanation longer than 400
characters as its first 400 characters plus `...`, and `search_recipes`
renders instructions longer than 300 characters as their first 300
characters plus `...`; shorter texts pass through unchanged. -/
theorem call_tool_truncation_policy :
    (∀ (args : Args) (o : Upstream) (fs : List (String × JValue)) (s : String),
      o.fetch (apodUrlOf args) = .ok (.obj fs) →
      jLookup fs "error" = none →
      jLookup fs "explanation" = some (.str s) →
      (call_tool "get_nasa_apod" args).run o =
        (.ok [mkText ("🚀 NASA APOD - " ++ pyToStr ((jLookup fs "date").getD (.str "Today"))
          ++ "\n\n✨ " ++ pyToStr ((jLookup fs "title").getD (.str "Amazing Space Image"))
          ++ "\n\n📝 " ++ (if 400 < s.length then String.mk (s.data.take 400) ++ "..." else s)
          ++ "\n\n🔗 Image URL: " ++ pyToStr ((jLookup fs "url").getD (.str "N/A"))
          ++ "\n🔗 HD URL: " ++ pyToStr ((jLookup fs "hdurl").getD (.str "Same as above")))],
         [apodUrlOf args]))
  ∧ (∀ (args : Args) (o : Upstream) (q : JValue) (fs mfs : List (String × JValue))
        (more : List JValue) (s : String),
      argsGetD args "query" (.str "") = q →
      o.fetch (recipesUrl (pyToStr q)) = .ok (.obj fs) →
      jLookup fs "meals" = some (.arr (.obj mfs :: more)) →
      jLookup mfs "strInstructions" = some (.str s) →
      ingredientsOf (.obj mfs) = .ok [] →
      jLookup mfs "strYoutube" = none →
      jLookup mfs "strMealThumb" = none →
      (call_tool "search_recipes" args).run o =
        (.ok [mkText ("🍳 Recipe: " ++ pyToStr ((jLookup mfs "strMeal").getD (.str "Delicious Dish"))
          ++ "\n\n🏷️ Category: " ++ pyToStr ((jLookup mfs "strCategory").getD (.str "N/A"))
          ++ "\n🌍 Origin: " ++ pyToStr ((jLookup mfs "strArea").getD (.str "International"))
          ++ "\n\n" ++ "👩‍🍳 Instructions:\n"
          ++ (if 300 < s.length then String.mk (s.data.take 300) ++ "..." else s)
          ++ "\n\n")],
         [recipesUrl (pyToStr q)])) := by
  constructor
  · intro args o fs s hfetch herr hexp
    by_cases hlen : 400 < s.length <;>
      simp [call_tool, get_nasa_apod, Eff.run, pyTry, effBind_run, liftE, httpGet,
        hfetch, pyInKey, herr, pyGetD, hexp, pyLen, hlen, pySliceTo, listSliceTo,
        pyAdd, pyNumOf, pyGetOpt, truthy, effPure_run, pyToStr_str]
  · intro args o q fs mfs more s hq hfetch hmeals hinstr hing hyt hthumb
    subst hq
    by_cases hlen : 300 < s.length <;>
      simp [call_tool, search_recipes, Eff.run, pyTry, effBind_run, liftE, httpGet,
        hfetch, pyGetOpt, pyGetD, hmeals, truthy, pyItem, pyIndex, hing, hinstr,
        pyLen, hlen, pySliceTo, listSliceTo, pyAdd, pyNumOf, hyt, hthumb, effPure_run,
        pyToStr_str]

/-- Witness for C6: a 401-character explanation is cut to 400 plus
`...`; 5-character instructions pass through unchanged. -/
theorem call_tool_truncation_policy_witness :
    (call_tool "get_nasa_apod" []).run oracleTruncation =
      (.ok [mkText ("🚀 NASA APOD - Today\n\n✨ Amazing Space Image\n\n📝 "
        ++ (String.mk (List.replicate 400 'a') ++ "...")
        ++ "\n\n🔗 Image URL: N/A\n🔗 HD URL: Same as above")], [apodBaseUrl])
    ∧ (call_tool "search_recipes" [("query", .str "pie")]).run oracleTruncation =
      (.ok [mkText ("🍳 Recipe: Delicious Dish\n\n🏷️ Category: N/A\n🌍 Origin: International\n\n"
        ++ "👩‍🍳 Instructions:\nMix.\n\n")], [recipesUrl "pie"]) := by
  constructor
  · have h := call_tool_truncation_policy.1 [] oracleTruncation
      [("explanation", .str (String.mk (List.replicate 401 'a')))]
      (String.mk (List.replicate 401 'a')) rfl rfl rfl
    simpa [apodUrlOf, argsGetD, jLookup, truthy] using h
  · have h := call_tool_truncation_policy.2 [("query", .str "pie")] oracleTruncation
      (.str "pie") [("meals", .arr [.obj [("strInstructions", .str "Mix.")]])]
      [("strInstructions", .str "Mix.")] [] "Mix." rfl rfl rfl rfl rfl rfl rfl
    simpa [jLookup] using h

/-- A bind inherits `okNonempty` from its continuation alone. -/
theorem okNonempty_bind {m : Eff α} {f : α → Eff (List TextContent)}
    (hf : ∀ a, okNonempty (f a)) : okNonempty (m >>= f) := by
  intro o tr l tr2 h
  rw [effBind_run] at h
  rcases hmo : m o tr with ⟨r, tr3⟩
  rw [hmo] at h
  cases r with
  | ok a => exact hf a o tr3 l tr2 h
  | error e => simp at h

/-- A literal non-empty return satisfies `okNonempty`. -/
theorem okNonempty_pure {l : List TextContent} (h : l ≠ []) :
    okNonempty (pure l : Eff (List TextContent)) := by
  intro o tr l2 tr2 h2
  have : l = l2 := by
    have := congrArg Prod.fst h2
    simpa [effPure_run] using this
  rw [← this]
  exact h

/-- A lifted expression whose successes are non-empty satisfies
`okNonempty`. -/
theorem okNonempty_liftE {ex : Except PyErr (List TextContent)}
    (h : ∀ l, ex = .ok l → l ≠ []) : okNonempty (liftE ex) := by
  intro o tr l tr2 h2
  cases ex with
  | ok l2 =>
      have hl : l2 = l := by
        have := congrArg Prod.fst h2
        simpa [liftE] using this
      exact hl ▸ h l2 rfl
  | error e => simp [liftE] at h2

/-- A branch satisfies `okNonempty` when both arms do. -/
theorem okNonempty_ite {c : Prop} [Decidable c] {m1 m2 : Eff (List TextContent)}
    (h1 : okNonempty m1) (h2 : okNonempty m2) : okNonempty (if c then m1 else m2) := by
  by_cases hc : c
  · simpa [hc] using h1
  · simpa [hc] using h2

/-- Running a `try` whose handler returns a fixed non-empty message
always succeeds with a non-empty result, provided the body\x27s own
successes are non-empty. -/
theorem pyTry_run_ok (body : Eff (List TextContent)) (msg : PyErr → List TextContent)
    (hbody : okNonempty body) (hmsg : ∀ e, msg e ≠ []) (o : Upstream) (tr : List String) :
    ∃ l tr2, (pyTry body (fun e => pure (msg e))) o tr = (.ok l, tr2) ∧ l ≠ [] := by
  rcases hb : body o tr with ⟨r, tr2⟩
  cases r with
  | ok l => exact ⟨l, tr2, by simp [pyTry, hb], hbody o tr l tr2 hb⟩
  | error e => exact ⟨msg e, tr2, by simp [pyTry, hb, effPure_run], hmsg e⟩

/-- The joke rendering only ever succeeds with a single-item list. -/
theorem jokeRender_ok_nonempty (jt : String) (joke : JValue) :
    ∀ l, jokeRender jt joke = .ok l → l ≠ [] := by
  intro l h
  unfold jokeRender at h
  rcases h1 : pyGetD joke "setup" (.str "") with e | setup <;> rw [h1] at h
  · simp [Bind.bind, Except.bind] at h
  · rcases h2 : pyGetD joke "punchline" (.str "") with e | p <;> rw [h2] at h
    · simp [Bind.bind, Except.bind] at h
    · simp [Bind.bind, Except.bind, pure, Except.pure] at h
      simp [← h]

/-- The weather body only ever succeeds with a single-item list. -/
theorem okNonempty_getWeatherBody (city : JValue) : okNonempty (getWeatherBody city) := by
  unfold getWeatherBody
  repeat' first
    | exact okNonempty_pure (List.cons_ne_nil _ _)
    | exact okNonempty_liftE (jokeRender_ok_nonempty _ _)
    | apply okNonempty_ite
    | (apply okNonempty_bind; intro _)

/-- The joke body only ever succeeds with a single-item list. -/
theorem okNonempty_getRandomJokeBody (jt : String) : okNonempty (getRandomJokeBody jt) := by
  unfold getRandomJokeBody
  repeat' first
    | exact okNonempty_pure (List.cons_ne_nil _ _)
    | exact okNonempty_liftE (jokeRender_ok_nonempty _ _)
    | apply okNonempty_ite
    | (apply okNonempty_bind; intro _)

/-- The post-fetch part of `search_books` only ever succeeds with a
single-item list. -/
theorem okNonempty_booksAfterFetch (q lim d : JValue) :
    okNonempty (booksAfterFetch q lim d) := by
  unfold booksAfterFetch
  repeat' first
    | exact okNonempty_pure (List.cons_ne_nil _ _)
    | apply okNonempty_ite
    | (apply okNonempty_bind; intro _)

/-- `get_weather` always answers with a non-empty result. -/
theorem get_weather_run_ok (args : Args) (o : Upstream) :
    ∃ l tr, (get_weather args).run o = (.ok l, tr) ∧ l ≠ [] := by
  unfold get_weather Eff.run
  exact pyTry_run_ok _ _ (okNonempty_getWeatherBody _) (fun e => List.cons_ne_nil _ _) o []

/-- `get_random_joke` always answers with a non-empty result when its
`type` argument is absent or a string. -/
theorem get_random_joke_run_ok (args : Args) (o : Upstream)
    (h : argOkStr (jLookup args "type") = true) :
    ∃ l tr, (get_random_joke args).run o = (.ok l, tr) ∧ l ≠ [] := by
  have hl : ∃ s, pyLowerS (argsGetD args "type" (.str "general")) = .ok s := by
    rcases hj : jLookup args "type" with _ | v
    · exact ⟨"general".toLower, by simp [argsGetD, hj, pyLowerS]⟩
    · cases v with
      | str s => exact ⟨s.toLower, by simp [argsGetD, hj, pyLowerS]⟩
      | null => simp [argOkStr, hj] at h
      | bool b => simp [argOkStr, hj] at h
      | num m e f => simp [argOkStr, hj] at h
      | arr xs => simp [argOkStr, hj] at h
      | obj fs => simp [argOkStr, hj] at h
  rcases hl with ⟨s, hs⟩
  unfold get_random_joke Eff.run
  rw [effBind_run]
  simp only [liftE, hs]
  exact pyTry_run_ok _ _ (okNonempty_getRandomJokeBody _) (fun e => List.cons_ne_nil _ _) o []

/-- `get_random_fact` always answers with a non-empty result. -/
theorem get_random_fact_run_ok (o : Upstream) :
    ∃ l tr, get_random_fact.run o = (.ok l, tr) ∧ l ≠ [] := by
  unfold get_random_fact Eff.run
  apply pyTry_run_ok _ _ ?_ (fun e => List.cons_ne_nil _ _) o []
  repeat' first
    | exact okNonempty_pure (List.cons_ne_nil _ _)
    | apply okNonempty_ite
    | (apply okNonempty_bind; intro _)

/-- `get_nasa_apod` always answers with a non-empty result. -/
theorem get_nasa_apod_run_ok (args : Args) (o : Upstream) :
    ∃ l tr, (get_nasa_apod args).run o = (.ok l, tr) ∧ l ≠ [] := by
  unfold get_nasa_apod Eff.run
  apply pyTry_run_ok _ _ ?_ (fun e => List.cons_ne_nil _ _) o []
  repeat' first
    | exact okNonempty_pure (List.cons_ne_nil _ _)
    | apply okNonempty_ite
    | (apply okNonempty_bind; intro _)

/-- `search_spotify_artist` always answers with a non-empty result. -/
theorem search_spotify_artist_run_ok (args : Args) (o : Upstream) :
    ∃ l tr, (search_spotify_artist args).run o = (.ok l, tr) ∧ l ≠ [] := by
  unfold search_spotify_artist Eff.run
  apply pyTry_run_ok _ _ ?_ (fun e => List.cons_ne_nil _ _) o []
  repeat' first
    | exact okNonempty_pure (List.cons_ne_nil _ _)
    | apply okNonempty_ite
    | (apply okNonempty_bind; intro _)

/-- `search_recipes` always answers with a non-empty result. -/
theorem search_recipes_run_ok (args : Args) (o : Upstream) :
    ∃ l tr, (search_recipes args).run o = (.ok l, tr) ∧ l ≠ [] := by
  unfold search_recipes Eff.run
  apply pyTry_run_ok _ _ ?_ (fun e => List.cons_ne_nil _ _) o []
  repeat' first
    | exact okNonempty_pure (List.cons_ne_nil _ _)
    | apply okNonempty_ite
    | (apply okNonempty_bind; intro _)

/-- `search_books` always answers with a non-empty result when its
`limit` argument is absent, a number, or a bool. -/
theorem search_books_run_ok (args : Args) (o : Upstream)
    (h : argOkNum (jLookup args "limit") = true) :
    ∃ l tr, (search_books args).run o = (.ok l, tr) ∧ l ≠ [] := by
  have hl : ∃ lim, pyMin (argsGetD args "limit" (jint 5)) (jint 10) = .ok lim := by
    rcases hj : jLookup args "limit" with _ | v
    · exact ⟨if decLe 5 0 10 0 then jint 5 else jint 10,
        by simp [argsGetD, hj, pyMin, pyNumOf, jint]⟩
    · cases v with
      | num m e f => exact ⟨if decLe m e 10 0 then .num m e f else jint 10,
          by simp [argsGetD, hj, pyMin, pyNumOf, jint]⟩
      | bool b => exact ⟨if decLe (if b then 1 else 0) 0 10 0 then .bool b else jint 10,
          by simp [argsGetD, hj, pyMin, pyNumOf, jint]⟩
      | null => simp [argOkNum, hj] at h
      | str s => simp [argOkNum, hj] at h
      | arr xs => simp [argOkNum, hj] at h
      | obj fs => simp [argOkNum, hj] at h
  rcases hl with ⟨lim, hlim⟩
  unfold search_books Eff.run
  rw [effBind_run]
  simp only [liftE, hlim]
  apply pyTry_run_ok _ _ ?_ (fun e => List.cons_ne_nil _ _) o []
  apply okNonempty_bind
  intro d
  exact okNonempty_booksAfterFetch _ _ _

/-- C1 counterexample: the claim quantifies over every argument mapping,
but `call_tool("get_random_joke", {"type": 5})` raises `AttributeError`
out of the adapter (the `.lower()` on the argument runs before the
`try`), so an exception does propagate to the dispatch layer. -/
theorem call_tool_nonstring_type_escapes :
    (call_tool "get_random_joke" [("type", jint 5)]).run oracleNull =
      (.error (.attributeError "object has no attribute lower"), []) := rfl

/-- C1 as amended: for every tool name and every argument mapping whose
values conform to the declared schemas (`type` of `get_random_joke`
absent or a string; `limit` of `search_books` absent or numeric — the
two arguments touched before the `try`), `call_tool` returns a
non-empty list of results and no exception escapes: upstream failures
are converted to error texts inside the adapters, and an unknown name
yields the `Unknown tool` text. -/
theorem call_tool_total_with_schema_args (name : String) (args : Args) (o : Upstream)
    (h : schemaOk name args = true) :
    ∃ l tr, (call_tool name args).run o = (.ok l, tr) ∧ l ≠ [] := by
  by_cases h1 : name = "get_weather"
  · subst h1
    simpa [call_tool] using get_weather_run_ok args o
  by_cases h2 : name = "get_random_joke"
  · subst h2
    have hx : argOkStr (jLookup args "type") = true := by simpa [schemaOk] using h
    simpa [call_tool] using get_random_joke_run_ok args o hx
  by_cases h3 : name = "get_random_fact"
  · subst h3
    simpa [call_tool, h1, h2] using get_random_fact_run_ok o
  by_cases h4 : name = "get_nasa_apod"
  · subst h4
    simpa [call_tool] using get_nasa_apod_run_ok args o
  by_cases h5 : name = "search_spotify_artist"
  · subst h5
    simpa [call_tool] using search_spotify_artist_run_ok args o
  by_cases h6 : name = "search_recipes"
  · subst h6
    simpa [call_tool] using search_recipes_run_ok args o
  by_cases h7 : name = "search_books"
  · subst h7
    have hx : argOkNum (jLookup args "limit") = true := by simpa [schemaOk] using h
    simpa [call_tool] using search_books_run_ok args o hx
  · exact ⟨[mkText ("❌ Unknown tool: " ++ name)], [],
      by simp [call_tool, h1, h2, h3, h4, h5, h6, h7, Eff.run, effPure_run],
      List.cons_ne_nil _ _⟩

/-- Witness for C1 as amended, at `get_weather` against a downed
upstream: the result is still a successful non-empty list. -/
theorem call_tool_total_with_schema_args_witness :
    schemaOk "get_weather" [] = true
    ∧ ∃ l tr, (call_tool "get_weather" []).run oracleDown = (.ok l, tr) ∧ l ≠ [] :=
  ⟨rfl, call_tool_total_with_schema_args "get_weather" [] oracleDown rfl⟩

/-- The little-endian digits of `n` evaluate back to `n`. -/
theorem digitsRev_val (fuel : Nat) : ∀ n, n < fuel → valLE (digitsRev fuel n) = n := by
  induction fuel with
  | zero => intro n h; omega
  | succ fuel ih =>
      intro n h
      by_cases h10 : n < 10
      · simp [digitsRev, h10, valLE]
      · have hrec : n / 10 < fuel := by omega
        simp only [digitsRev, if_neg h10, valLE, ih (n / 10) hrec]
        omega

/-- Digits produced by `digitsRev` are below ten. -/
theorem digitsRev_lt (fuel : Nat) : ∀ n, ∀ d ∈ digitsRev fuel n, d < 10 := by
  induction fuel with
  | zero => intro n d h; simp [digitsRev] at h
  | succ fuel ih =>
      intro n d h
      by_cases h10 : n < 10
      · simp [digitsRev, h10] at h
        omega
      · simp only [digitsRev, if_neg h10, List.mem_cons] at h
        rcases h with h | h
        · omega
        · exact ih (n / 10) d h

/-- `digitsRev` yields at least one digit when given fuel. -/
theorem digitsRev_ne_nil (fuel n : Nat) (h : 0 < fuel) : digitsRev fuel n ≠ [] := by
  cases fuel with
  | zero => omega
  | succ fuel =>
      by_cases h10 : n < 10 <;> simp [digitsRev, h10]

/-- `digitsRev` stays short: below `10 ^ k` it needs at most `k`
digits. -/
theorem digitsRev_length (fuel : Nat) :
    ∀ n k, n < 10 ^ k → 0 < k → (digitsRev fuel n).length ≤ k := by
  induction fuel with
  | zero => intro n k _ _; simp [digitsRev]
  | succ fuel ih =>
      intro n k h hk
      by_cases h10 : n < 10
      · simpa [digitsRev, h10] using hk
      · have hk2 : 2 ≤ k := by
          by_contra hlt
          have : k = 1 := by omega
          subst this
          simp at h
          omega
        have hdiv : n / 10 < 10 ^ (k - 1) := by
          have h2 : n < 10 * 10 ^ (k - 1) := by
            have h3 : 10 * 10 ^ (k - 1) = 10 ^ k := by
              have h4 : k - 1 + 1 = k := by omega
              calc 10 * 10 ^ (k - 1) = 10 ^ (k - 1 + 1) := by ring
                _ = 10 ^ k := by rw [h4]
            omega
          exact Nat.div_lt_of_lt_mul h2
        have := ih (n / 10) (k - 1) hdiv (by omega)
        simp only [digitsRev, if_neg h10, List.length_cons]
        omega

/-- Folding digits most-significant-first matches the little-endian
value of the reversed list. -/
theorem digitsVal_reverse (ds : List Nat) : digitsVal ds.reverse = valLE ds := by
  induction ds with
  | nil => rfl
  | cons d ds ih =>
      have happ : digitsVal (ds.reverse ++ [d]) = digitsVal ds.reverse * 10 + d := by
        simp [digitsVal, List.foldl_append]
      simp only [List.reverse_cons, happ, ih, valLE]
      omega

/-- The decimal digits of `n` evaluate back to `n`. -/
theorem natDigits_val (n : Nat) : digitsVal (natDigits n) = n := by
  simp [natDigits, digitsVal_reverse, digitsRev_val (n + 1) n (by omega)]

/-- The decimal digits of `n` are below ten. -/
theorem natDigits_lt (n : Nat) : ∀ d ∈ natDigits n, d < 10 := by
  intro d h
  exact digitsRev_lt (n + 1) n d (by simpa [natDigits] using h)

/-- Every number has at least one decimal digit. -/
theorem natDigits_ne_nil (n : Nat) : natDigits n ≠ [] := by
  simp [natDigits]
  exact digitsRev_ne_nil (n + 1) n (by omega)

/-- A number below `10 ^ k` has at most `k` decimal digits. -/
theorem natDigits_length_le (n k : Nat) (h : n < 10 ^ k) (hk : 0 < k) :
    (natDigits n).length ≤ k := by
  simpa [natDigits] using digitsRev_length (n + 1) n k h hk

/-- Digit characters read as digits. -/
theorem digitChar_isDigit (d : Nat) (h : d < 10) : (digitChar d).isDigit = true := by
  interval_cases d <;> decide

/-- Reading a digit character recovers the digit. -/
theorem digitVal_digitChar (d : Nat) (h : d < 10) : digitVal (digitChar d) = d := by
  interval_cases d <;> decide

/-- Digit characters are not whitespace. -/
theorem digitChar_not_ws (d : Nat) : isWsChar (digitChar d) = false := by
  unfold digitChar
  split <;> decide

/-- The digit span of rendered digits followed by a non-digit is exactly
those digits. -/
theorem digitSpan_exact (ds : List Nat) (h : ∀ d ∈ ds, d < 10) (rest : List Char)
    (hrest : headNotDigit rest) :
    digitSpan (ds.map digitChar ++ rest) = (ds, rest) := by
  induction ds with
  | nil =>
      cases rest with
      | nil => rfl
      | cons c cs => simp [digitSpan, show c.isDigit = false from hrest]
  | cons d ds ih =>
      have hd : d < 10 := h d (by simp)
      have hds : ∀ x ∈ ds, x < 10 := fun x hx => h x (by simp [hx])
      simp only [List.map_cons, List.cons_append, digitSpan, digitChar_isDigit d hd,
        List.append_eq, ih hds, digitVal_digitChar d hd, if_true]

/-- A number boundary in particular stops a digit span. -/
theorem numBoundary_headNotDigit {rest : List Char} (h : numBoundary rest) :
    headNotDigit rest := by
  cases rest with
  | nil => trivial
  | cons c cs => exact h.1

/-- Leading zeros do not change the value of a digit list. -/
theorem digitsVal_replicate_zero (k : Nat) (ds : List Nat) :
    digitsVal (List.replicate k 0 ++ ds) = digitsVal ds := by
  induction k with
  | zero => rfl
  | succ k ih => simpa [List.replicate_succ, digitsVal] using ih

/-- Normalisation removes exactly the one factor of ten a trailing
`.0` rendering introduces. -/
theorem normDec_mul_ten (a : Int) : normDec (a * 10) 1 = (a, 0) := by
  have h1 : (a * 10) % 10 = 0 := by simp [Int.mul_emod_left]
  have h2 : (a * 10) / 10 = a := by
    simpa using Int.mul_ediv_cancel a (by norm_num : (10 : Int) ≠ 0)
  simp [normDec, normDecAux, h1, h2]

/-- Normalisation fixes a scaled decimal already in least terms. -/
theorem normDec_stable (a : Int) (e : Nat) (h : a % 10 ≠ 0) (he : 0 < e) :
    normDec a e = (a, e) := by
  cases e with
  | zero => omega
  | succ k => simp [normDec, normDecAux, h]

/-- Reading rendered digits as an unsigned integer recovers the
number. -/
theorem parseNumPos_int (n : Nat) (rest : List Char) (hrest : numBoundary rest) :
    parseNumPos ((natRender n).data ++ rest) = some (((n : Int), 0, false), rest) := by
  obtain ⟨d0, ds0, hds⟩ := List.exists_cons_of_ne_nil (natDigits_ne_nil n)
  have hspan : digitSpan ((natDigits n).map digitChar ++ rest) = (natDigits n, rest) :=
    digitSpan_exact (natDigits n) (natDigits_lt n) rest (numBoundary_headNotDigit hrest)
  have hdata : (natRender n).data = (natDigits n).map digitChar := rfl
  rw [hdata] at *
  unfold parseNumPos
  rw [hspan, hds]
  cases rest with
  | nil => simp [← hds, natDigits_val]
  | cons c cs =>
      have hc : c ≠ '.' := hrest.2
      simp only []
      split
      · rename_i heq
        injection heq with h1 h2
        exact absurd h1 hc
      · simp [← hds, natDigits_val]

/-- Digit characters are never the minus sign. -/
theorem digitChar_ne_dash (d : Nat) : digitChar d ≠ '-' := by
  unfold digitChar
  split <;> decide

/-- A digit span stops immediately at a boundary. -/
theorem digitSpan_none (rest : List Char) (h : headNotDigit rest) :
    digitSpan rest = ([], rest) := by
  cases rest with
  | nil => rfl
  | cons c cs => simp [digitSpan, show c.isDigit = false from h]

/-- The rendered digits of `n` are as long as its digit list. -/
theorem natRender_length (n : Nat) : (natRender n).length = (natDigits n).length := by
  simp [natRender, String.length]

/-- Reading an integral float rendering (`….0`) recovers the value at
exponent zero. -/
theorem parseNumPos_float_zero (a : Nat) (rest : List Char) (hrest : numBoundary rest) :
    parseNumPos ((natRender a).data ++ '.' :: '0' :: rest) =
      some (((a : Int), 0, true), rest) := by
  obtain ⟨d0, ds0, hds⟩ := List.exists_cons_of_ne_nil (natDigits_ne_nil a)
  have hspan : digitSpan ((natDigits a).map digitChar ++ '.' :: '0' :: rest) =
      (natDigits a, '.' :: '0' :: rest) :=
    digitSpan_exact (natDigits a) (natDigits_lt a) _ (by simp [headNotDigit])
  have hspan2 : digitSpan ('0' :: rest) = ([0], rest) := by
    simp [digitSpan, digitSpan_none rest (numBoundary_headNotDigit hrest), digitVal]
  have hvv : digitsVal (d0 :: ds0) = a := by rw [← hds]; exact natDigits_val a
  simp only [show (natRender a).data = (natDigits a).map digitChar from rfl]
  unfold parseNumPos
  rw [hspan, hds]
  have hfold : List.foldl (fun a d => a * 10 + d) d0 ds0 = a := by
    simpa [digitsVal] using hvv
  simp [hspan2, digitsVal, hfold, normDec_mul_ten]

/-- Reading a fractional float rendering recovers the value at its
least-terms exponent. -/
theorem parseNumPos_float_pos (a e : Nat) (he : 0 < e) (hnd : (a : Int) % 10 ≠ 0)
    (rest : List Char) (hrest : numBoundary rest) :
    parseNumPos ((natRender (a / 10 ^ e)).data ++ '.' ::
        ((padZeros e (natRender (a % 10 ^ e))).data ++ rest)) =
      some (((a : Int), e, true), rest) := by
  obtain ⟨d0, ds0, hds⟩ := List.exists_cons_of_ne_nil (natDigits_ne_nil (a / 10 ^ e))
  have hlenle : (natDigits (a % 10 ^ e)).length ≤ e :=
    natDigits_length_le (a % 10 ^ e) e (Nat.mod_lt a (by positivity)) he
  have hpad : (padZeros e (natRender (a % 10 ^ e))).data =
      (List.replicate (e - (natDigits (a % 10 ^ e)).length) 0
        ++ natDigits (a % 10 ^ e)).map digitChar := by
    simp only [padZeros, String.data_append, List.map_append, List.map_replicate,
      natRender_length]
    rfl
  obtain ⟨p0, ps0, hpd⟩ : ∃ p0 ps0,
      List.replicate (e - (natDigits (a % 10 ^ e)).length) 0 ++ natDigits (a % 10 ^ e)
        = p0 :: ps0 := by
    apply List.exists_cons_of_ne_nil
    simp [natDigits_ne_nil]
  have hfraclt : ∀ d ∈ List.replicate (e - (natDigits (a % 10 ^ e)).length) 0
      ++ natDigits (a % 10 ^ e), d < 10 := by
    intro d hd
    rcases List.mem_append.1 hd with h | h
    · have := List.eq_of_mem_replicate h
      omega
    · exact natDigits_lt _ d h
  have hspan : digitSpan ((natDigits (a / 10 ^ e)).map digitChar ++ '.' ::
      ((padZeros e (natRender (a % 10 ^ e))).data ++ rest)) =
      (natDigits (a / 10 ^ e), '.' :: ((padZeros e (natRender (a % 10 ^ e))).data ++ rest)) :=
    digitSpan_exact _ (natDigits_lt _) _ (by simp [headNotDigit])
  have hspan2 : digitSpan ((padZeros e (natRender (a % 10 ^ e))).data ++ rest) =
      (p0 :: ps0, rest) := by
    rw [hpad, ← hpd]
    exact digitSpan_exact _ hfraclt rest (numBoundary_headNotDigit hrest)
  have hv1 : digitsVal (d0 :: ds0) = a / 10 ^ e := by rw [← hds]; exact natDigits_val _
  have hv2 : digitsVal (p0 :: ps0) = a % 10 ^ e := by
    rw [← hpd, digitsVal_replicate_zero]
    exact natDigits_val _
  have hl2 : (p0 :: ps0).length = e := by
    rw [← hpd]
    simp
    omega
  have hval : (digitsVal (d0 :: ds0) : Int) * 10 ^ e
      + (digitsVal (p0 :: ps0) : Int) = (a : Int) := by
    rw [hv1, hv2]
    have h2 : ((10 ^ e * (a / 10 ^ e) + a % 10 ^ e : Nat) : Int) = (a : Int) :=
      congrArg (fun n : Nat => (n : Int)) (Nat.div_add_mod a (10 ^ e))
    push_cast at h2 ⊢
    linarith [h2]
  simp only [show (natRender (a / 10 ^ e)).data = (natDigits (a / 10 ^ e)).map digitChar
    from rfl]
  unfold parseNumPos
  rw [hspan, hds]
  simp [hspan2, hl2, hval, normDec_stable (a : Int) e hnd he]

/-- Reading a rendered Python `int` recovers it. -/
theorem parseNum_intRender (m : Int) (rest : List Char) (hrest : numBoundary rest) :
    parseNum ((intRender m).data ++ rest) = some (.num m 0 false, rest) := by
  by_cases hm : m < 0
  · have hdata : (intRender m).data = '-' :: (natRender m.natAbs).data := by
      simp only [intRender, if_pos hm, String.data_append]
      rfl
    rw [hdata]
    show parseNum ('-' :: ((natRender m.natAbs).data ++ rest)) = _
    rw [show parseNum ('-' :: ((natRender m.natAbs).data ++ rest)) =
      Option.map (fun p => (JValue.num (-p.1.1) p.1.2.1 p.1.2.2, p.2))
        (parseNumPos ((natRender m.natAbs).data ++ rest)) from rfl]
    rw [parseNumPos_int m.natAbs rest hrest]
    have h2 : -(m.natAbs : Int) = m := by omega
    simp only [Option.map_some']
    rw [h2]
  · have hdata : (intRender m).data = (natRender m.natAbs).data := by
      simp only [intRender, if_neg hm]
      rfl
    rw [hdata]
    obtain ⟨d0, ds0, hds⟩ := List.exists_cons_of_ne_nil (natDigits_ne_nil m.natAbs)
    have hdata2 : (natRender m.natAbs).data = (natDigits m.natAbs).map digitChar := rfl
    unfold parseNum
    rw [hdata2, hds]
    simp only [List.map_cons, List.cons_append]
    split
    · rename_i heq
      injection heq with h1 h2
      exact absurd h1 (digitChar_ne_dash d0)
    · rw [show (digitChar d0 :: (List.map digitChar ds0 ++ rest)) =
          ((natDigits m.natAbs).map digitChar ++ rest) from by rw [hds]; simp]
      rw [← hdata2, parseNumPos_int m.natAbs rest hrest]
      have h2 : (m.natAbs : Int) = m := by omega
      simp only [Option.map_some']
      rw [h2]

/-- An input opening with rendered digits takes the signless branch of
`parseNum`. -/
theorem parseNum_noDash (n : Nat) (tail : List Char) :
    parseNum ((natRender n).data ++ tail) =
      Option.map (fun p => (JValue.num p.1.1 p.1.2.1 p.1.2.2, p.2))
        (parseNumPos ((natRender n).data ++ tail)) := by
  obtain ⟨d0, ds0, hds⟩ := List.exists_cons_of_ne_nil (natDigits_ne_nil n)
  have hdata2 : (natRender n).data = (natDigits n).map digitChar := rfl
  rw [hdata2, hds]
  unfold parseNum
  simp only [List.map_cons, List.cons_append]
  split
  · rename_i heq
    injection heq with h1 h2
    exact absurd h1 (digitChar_ne_dash d0)
  · rfl

/-- Reading a rendered Python float in canonical form recovers it. -/
theorem parseNum_decRender (m : Int) (e : Nat) (h : e = 0 ∨ m % 10 ≠ 0)
    (rest : List Char) (hrest : numBoundary rest) :
    parseNum ((decRender m e).data ++ rest) = some (.num m e true, rest) := by
  by_cases he : e = 0
  · subst he
    have hbody : (decRender m 0).data ++ rest =
        (if m < 0 then ['-'] else []) ++ ((natRender m.natAbs).data ++ '.' :: '0' :: rest) := by
      by_cases hm : m < 0 <;>
        simp [decRender, hm, String.data_append, List.append_assoc] <;> rfl
    rw [hbody]
    by_cases hm : m < 0
    · rw [if_pos hm, List.singleton_append]
      rw [show parseNum ('-' :: ((natRender m.natAbs).data ++ '.' :: '0' :: rest)) =
        Option.map (fun p => (JValue.num (-p.1.1) p.1.2.1 p.1.2.2, p.2))
          (parseNumPos ((natRender m.natAbs).data ++ '.' :: '0' :: rest)) from rfl]
      rw [parseNumPos_float_zero m.natAbs rest hrest]
      simp only [Option.map_some']
      rw [show -(m.natAbs : Int) = m from by omega]
    · rw [if_neg hm, List.nil_append,
        parseNum_noDash m.natAbs ('.' :: '0' :: rest),
        parseNumPos_float_zero m.natAbs rest hrest]
      simp only [Option.map_some']
      rw [show (m.natAbs : Int) = m from by omega]
  · have hnd : m % 10 ≠ 0 := h.resolve_left he
    have hndA : (m.natAbs : Int) % 10 ≠ 0 := by omega
    have he2 : 0 < e := Nat.pos_of_ne_zero he
    have hbody : (decRender m e).data ++ rest =
        (if m < 0 then ['-'] else []) ++ ((natRender (m.natAbs / 10 ^ e)).data ++ '.' ::
          ((padZeros e (natRender (m.natAbs % 10 ^ e))).data ++ rest)) := by
      by_cases hm : m < 0 <;>
        simp [decRender, hm, he, String.data_append, List.append_assoc] <;> rfl
    rw [hbody]
    by_cases hm : m < 0
    · rw [if_pos hm, List.singleton_append]
      rw [show parseNum ('-' :: ((natRender (m.natAbs / 10 ^ e)).data ++ '.' ::
          ((padZeros e (natRender (m.natAbs % 10 ^ e))).data ++ rest))) =
        Option.map (fun p => (JValue.num (-p.1.1) p.1.2.1 p.1.2.2, p.2))
          (parseNumPos ((natRender (m.natAbs / 10 ^ e)).data ++ '.' ::
            ((padZeros e (natRender (m.natAbs % 10 ^ e))).data ++ rest))) from rfl]
      rw [parseNumPos_float_pos m.natAbs e he2 hndA rest hrest]
      simp only [Option.map_some']
      rw [show -(m.natAbs : Int) = m from by omega]
    · rw [if_neg hm, List.nil_append,
        parseNum_noDash (m.natAbs / 10 ^ e) _,
        parseNumPos_float_pos m.natAbs e he2 hndA rest hrest]
      simp only [Option.map_some']
      rw [show (m.natAbs : Int) = m from by omega]

/-- Reading any rendered number in the model\x27s canonical form
recovers it exactly. -/
theorem parseNum_numRender (m : Int) (e : Nat) (f : Bool)
    (h : jnormal (.num m e f) = true) (rest : List Char) (hrest : numBoundary rest) :
    parseNum ((numRender m e f).data ++ rest) = some (.num m e f, rest) := by
  cases f
  · have he : e = 0 := by simpa [jnormal] using h
    subst he
    simpa [numRender] using parseNum_intRender m rest hrest
  · have h2 : e = 0 ∨ m % 10 ≠ 0 := by
      have := h
      simp [jnormal] at this
      rcases this with h3 | h3
      · exact Or.inl h3
      · exact Or.inr (by omega)
    simpa [numRender] using parseNum_decRender m e h2 rest hrest

/-- Hexadecimal digits read back their value. -/
theorem hexVal_hexDigit (d : Nat) (h : d < 16) : hexVal (hexDigit d) = some d := by
  interval_cases d <;> decide

/-- The four rendered hex digits of `n < 0x10000` read back as `n`. -/
theorem hexVal4_hex4 (n : Nat) (h : n < 65536) :
    hexVal4 (hexDigit (n / 4096 % 16)) (hexDigit (n / 256 % 16))
      (hexDigit (n / 16 % 16)) (hexDigit (n % 16)) = some n := by
  unfold hexVal4
  rw [hexVal_hexDigit _ (by omega), hexVal_hexDigit _ (by omega),
    hexVal_hexDigit _ (by omega), hexVal_hexDigit _ (by omega)]
  simp only [Option.some.injEq]
  omega

/-- A character\x27s code point avoids the surrogate block and stays
below `0x110000`. -/
theorem char_toNat_valid (c : Char) :
    c.toNat < 0xD800 ∨ (0xDFFF < c.toNat ∧ c.toNat < 0x110000) := c.valid

/-- One string-reader step across an escaped surrogate pair. -/
theorem parseStrBody_unicode_pair (fuel : Nat) (a b c d a2 b2 c2 d2 : Char)
    (n m2 : Nat) (r3 acc : List Char)
    (ha : hexVal4 a b c d = some n) (hhi : 0xD800 ≤ n ∧ n < 0xDC00)
    (hb : hexVal4 a2 b2 c2 d2 = some m2) (hlo : 0xDC00 ≤ m2 ∧ m2 < 0xE000) :
    parseStrBody (fuel + 1)
      ('\\' :: 'u' :: a :: b :: c :: d :: '\\' :: 'u' :: a2 :: b2 :: c2 :: d2 :: r3) acc
      = parseStrBody fuel r3
          (Char.ofNat (0x10000 + (n - 0xD800) * 0x400 + (m2 - 0xDC00)) :: acc) := by
  simp only [parseStrBody, ha, hb]
  simp [hhi.1, hhi.2, hlo.1, hlo.2]

/-- Reading the escaped body of a string, then the closing quote,
recovers the accumulated text. -/
theorem parseStrBody_complete (cs : List Char) :
    ∀ (fuel : Nat), cs.length < fuel → ∀ (acc rest : List Char),
    parseStrBody fuel (escList cs ++ '"' :: rest) acc =
      some (String.mk (acc.reverse ++ cs), rest) := by
  induction cs with
  | nil =>
      intro fuel hf acc rest
      cases fuel with
      | zero => omega
      | succ fuel => simp [escList, parseStrBody]
  | cons c cs ih =>
      intro fuel hf acc rest
      cases fuel with
      | zero => omega
      | succ fuel =>
      have hf2 : cs.length < fuel := by simp at hf; omega
      have hval := char_toNat_valid c
      show parseStrBody (fuel + 1) ((escChar c ++ escList cs) ++ '"' :: rest) acc = _
      rw [List.append_assoc]
      by_cases hq : c = '"'
      · subst hq
        rw [show escChar '"' = ['\\', '"'] from rfl]
        show parseStrBody (fuel + 1) ('\\' :: '"' :: (escList cs ++ '"' :: rest)) acc = _
        rw [show parseStrBody (fuel + 1) ('\\' :: '"' :: (escList cs ++ '"' :: rest)) acc =
          parseStrBody fuel (escList cs ++ '"' :: rest) ('"' :: acc) from rfl]
        rw [ih fuel hf2 ('"' :: acc) rest]
        simp
      · by_cases hbs : c = '\\'
        · subst hbs
          rw [show escChar '\\' = ['\\', '\\'] from rfl]
          show parseStrBody (fuel + 1) ('\\' :: '\\' :: (escList cs ++ '"' :: rest)) acc = _
          rw [show parseStrBody (fuel + 1) ('\\' :: '\\' :: (escList cs ++ '"' :: rest)) acc =
            parseStrBody fuel (escList cs ++ '"' :: rest) ('\\' :: acc) from rfl]
          rw [ih fuel hf2 ('\\' :: acc) rest]
          simp
        · by_cases hn : c = '\n'
          · subst hn
            rw [show escChar '\n' = ['\\', 'n'] from rfl]
            show parseStrBody (fuel + 1) ('\\' :: 'n' :: (escList cs ++ '"' :: rest)) acc = _
            rw [show parseStrBody (fuel + 1) ('\\' :: 'n' :: (escList cs ++ '"' :: rest)) acc =
              parseStrBody fuel (escList cs ++ '"' :: rest) ('\n' :: acc) from rfl]
            rw [ih fuel hf2 ('\n' :: acc) rest]
            simp
          · by_cases ht : c = '\t'
            · subst ht
              rw [show escChar '\t' = ['\\', 't'] from rfl]
              show parseStrBody (fuel + 1) ('\\' :: 't' :: (escList cs ++ '"' :: rest)) acc = _
              rw [show parseStrBody (fuel + 1) ('\\' :: 't' :: (escList cs ++ '"' :: rest)) acc =
                parseStrBody fuel (escList cs ++ '"' :: rest) ('\t' :: acc) from rfl]
              rw [ih fuel hf2 ('\t' :: acc) rest]
              simp
            · by_cases hr : c = '\r'
              · subst hr
                rw [show escChar '\r' = ['\\', 'r'] from rfl]
                show parseStrBody (fuel + 1) ('\\' :: 'r' :: (escList cs ++ '"' :: rest)) acc = _
                rw [show parseStrBody (fuel + 1)
                    ('\\' :: 'r' :: (escList cs ++ '"' :: rest)) acc =
                  parseStrBody fuel (escList cs ++ '"' :: rest) ('\r' :: acc) from rfl]
                rw [ih fuel hf2 ('\r' :: acc) rest]
                simp
              · by_cases hb8 : c = '\x08'
                · subst hb8
                  rw [show escChar '\x08' = ['\\', 'b'] from rfl]
                  show parseStrBody (fuel + 1)
                      ('\\' :: 'b' :: (escList cs ++ '"' :: rest)) acc = _
                  rw [show parseStrBody (fuel + 1)
                      ('\\' :: 'b' :: (escList cs ++ '"' :: rest)) acc =
                    parseStrBody fuel (escList cs ++ '"' :: rest) ('\x08' :: acc) from rfl]
                  rw [ih fuel hf2 ('\x08' :: acc) rest]
                  simp
                · by_cases hc12 : c = '\x0c'
                  · subst hc12
                    rw [show escChar '\x0c' = ['\\', 'f'] from rfl]
                    show parseStrBody (fuel + 1)
                        ('\\' :: 'f' :: (escList cs ++ '"' :: rest)) acc = _
                    rw [show parseStrBody (fuel + 1)
                        ('\\' :: 'f' :: (escList cs ++ '"' :: rest)) acc =
                      parseStrBody fuel (escList cs ++ '"' :: rest) ('\x0c' :: acc) from rfl]
                    rw [ih fuel hf2 ('\x0c' :: acc) rest]
                    simp
                  · by_cases hlt20 : c.toNat < 0x20
                    · have hesc : escChar c = '\\' :: 'u' :: hex4 c.toNat := by
                        simp [escChar, hq, hbs, hn, ht, hr, hb8, hc12, hlt20]
                      have hd1 : ¬(0xD800 ≤ c.toNat ∧ c.toNat < 0xDC00) := by omega
                      have hd2 : ¬(0xDC00 ≤ c.toNat ∧ c.toNat < 0xE000) := by omega
                      rw [hesc, show hex4 c.toNat = hexDigit (c.toNat / 4096 % 16) ::
                        hexDigit (c.toNat / 256 % 16) :: hexDigit (c.toNat / 16 % 16) ::
                        [hexDigit (c.toNat % 16)] from rfl]
                      simp only [List.cons_append, List.nil_append]
                      simp only [parseStrBody]
                      rw [hexVal4_hex4 c.toNat (by omega)]
                      simp only [hd1, hd2, if_false, Char.ofNat_toNat]
                      rw [ih fuel hf2 (c :: acc) rest]
                      simp
                    · by_cases hlt7f : c.toNat < 0x7f
                      · have hesc : escChar c = [c] := by
                          simp [escChar, hq, hbs, hn, ht, hr, hb8, hc12, hlt20, hlt7f]
                        rw [hesc]
                        simp only [List.singleton_append]
                        unfold parseStrBody
                        split
                        · rename_i heq
                          exact absurd heq (by simp)
                        · rename_i heq
                          injection heq with h1 h2
                          exact absurd h1 hq
                        · rename_i heq
                          injection heq with h1 h2
                          exact absurd h1 hbs
                        · rename_i c2 r2 heq
                          injection heq with h1 h2
                          subst h1
                          rw [← h2, ih fuel hf2 (c :: acc) rest]
                          simp
                      · by_cases hlt64k : c.toNat < 0x10000
                        · have hesc : escChar c = '\\' :: 'u' :: hex4 c.toNat := by
                            simp [escChar, hq, hbs, hn, ht, hr, hb8, hc12, hlt20, hlt7f, hlt64k]
                          have hd1 : ¬(0xD800 ≤ c.toNat ∧ c.toNat < 0xDC00) := by
                            rcases hval with h | h <;> omega
                          have hd2 : ¬(0xDC00 ≤ c.toNat ∧ c.toNat < 0xE000) := by
                            rcases hval with h | h <;> omega
                          rw [hesc, show hex4 c.toNat = hexDigit (c.toNat / 4096 % 16) ::
                            hexDigit (c.toNat / 256 % 16) :: hexDigit (c.toNat / 16 % 16) ::
                            [hexDigit (c.toNat % 16)] from rfl]
                          simp only [List.cons_append, List.nil_append]
                          simp only [parseStrBody]
                          rw [hexVal4_hex4 c.toNat (by omega)]
                          simp only [hd1, hd2, if_false, Char.ofNat_toNat]
                          rw [ih fuel hf2 (c :: acc) rest]
                          simp
                        · have hlt : c.toNat < 0x110000 := by rcases hval with h | h <;> omega
                          have hesc : escChar c =
                              ('\\' :: 'u' :: hex4 (0xD800 + (c.toNat - 0x10000) / 0x400))
                                ++ ('\\' :: 'u' :: hex4 (0xDC00 + (c.toNat - 0x10000) % 0x400)) := by
                            simp [escChar, hq, hbs, hn, ht, hr, hb8, hc12, hlt20, hlt7f, hlt64k]
                          set hi := 0xD800 + (c.toNat - 0x10000) / 0x400 with hhi
                          set lo := 0xDC00 + (c.toNat - 0x10000) % 0x400 with hlo
                          have hhirange : 0xD800 ≤ hi ∧ hi < 0xDC00 := by
                            constructor
                            · omega
                            · have : (c.toNat - 0x10000) / 0x400 < 0x400 := by omega
                              omega
                          have hlorange : 0xDC00 ≤ lo ∧ lo < 0xE000 := by
                            constructor
                            · omega
                            · have : (c.toNat - 0x10000) % 0x400 < 0x400 := by omega
                              omega
                          rw [hesc, show hex4 hi = hexDigit (hi / 4096 % 16) ::
                            hexDigit (hi / 256 % 16) :: hexDigit (hi / 16 % 16) ::
                            [hexDigit (hi % 16)] from rfl,
                            show hex4 lo = hexDigit (lo / 4096 % 16) ::
                            hexDigit (lo / 256 % 16) :: hexDigit (lo / 16 % 16) ::
                            [hexDigit (lo % 16)] from rfl]
                          simp only [List.cons_append, List.nil_append]
                          rw [parseStrBody_unicode_pair fuel _ _ _ _ _ _ _ _ hi lo _ acc
                            (hexVal4_hex4 hi (by omega)) hhirange
                            (hexVal4_hex4 lo (by omega)) hlorange]
                          have harith : 0x10000 + (hi - 0xD800) * 0x400 + (lo - 0xDC00)
                              = c.toNat := by
                            rw [hhi, hlo]
                            omega
                          rw [harith, Char.ofNat_toNat]
                          rw [ih fuel hf2 (c :: acc) rest]
                          simp

/-- Each character escapes to at least one character. -/
theorem escChar_length_pos (c : Char) : 1 ≤ (escChar c).length := by
  unfold escChar
  repeat' split
  all_goals simp [hex4]

/-- Escaping never shortens a string. -/
theorem escList_length_ge (cs : List Char) : cs.length ≤ (escList cs).length := by
  induction cs with
  | nil => simp [escList]
  | cons c cs ih =>
      have := escChar_length_pos c
      simp only [escList, List.length_append, List.length_cons]
      omega

/-- Dropping whitespace passes over an all-whitespace block. -/
theorem skipWs_ws_append (ws l : List Char) (h : ∀ c ∈ ws, isWsChar c = true) :
    skipWs (ws ++ l) = skipWs l := by
  induction ws with
  | nil => rfl
  | cons c cs ih =>
      have hc : isWsChar c = true := h c (by simp)
      simp only [List.cons_append, skipWs, List.dropWhile_cons, hc, if_true]
      exact ih (fun c hc2 => h c (by simp [hc2]))

/-- Dropping whitespace passes over indentation. -/
theorem skipWs_spaces (n : Nat) (l : List Char) : skipWs (spaces n ++ l) = skipWs l :=
  skipWs_ws_append _ l (by
    intro c hc
    have := List.eq_of_mem_replicate hc
    subst this
    rfl)

/-- Dropping whitespace passes over one newline. -/
theorem skipWs_newline (l : List Char) : skipWs ('\n' :: l) = skipWs l := rfl

/-- Dropping whitespace stops at a non-whitespace head. -/
theorem skipWs_of_headNotWs (l : List Char) (h : headNotWs l) : skipWs l = l := by
  cases l with
  | nil => rfl
  | cons c cs => simp [skipWs, List.dropWhile_cons, show isWsChar c = false from h]

/-- The first character of a rendered number: a minus sign or a digit. -/
theorem numRender_head (m : Int) (e : Nat) (f : Bool) :
    ∃ c0 r0, (numRender m e f).data = c0 :: r0
      ∧ (c0 = '-' ∨ ∃ d, d < 10 ∧ c0 = digitChar d) := by
  have hnat : ∀ n : Nat, ∃ d r1, (natRender n).data = digitChar d :: r1 ∧ d < 10 := by
    intro n
    obtain ⟨d0, ds0, hds⟩ := List.exists_cons_of_ne_nil (natDigits_ne_nil n)
    refine ⟨d0, ds0.map digitChar, ?_, ?_⟩
    · rw [show (natRender n).data = (natDigits n).map digitChar from rfl, hds]
      rfl
    · exact natDigits_lt n d0 (by simp [hds])
  cases f with
  | false =>
      by_cases hm : m < 0
      · refine ⟨'-', (natRender m.natAbs).data, ?_, Or.inl rfl⟩
        show (intRender m).data = _
        simp only [intRender, if_pos hm, String.data_append]
        rfl
      · obtain ⟨d, r1, hd, hdlt⟩ := hnat m.natAbs
        refine ⟨digitChar d, r1, ?_, Or.inr ⟨d, hdlt, rfl⟩⟩
        show (intRender m).data = _
        rw [show (intRender m).data = (natRender m.natAbs).data from by
          simp only [intRender, if_neg hm]
          rfl]
        exact hd
  | true =>
      by_cases hm : m < 0
      · refine ⟨'-', ((if e = 0 then natRender m.natAbs ++ ".0"
            else natRender (m.natAbs / 10 ^ e) ++ "."
              ++ padZeros e (natRender (m.natAbs % 10 ^ e))) : String).data, ?_, Or.inl rfl⟩
        show (decRender m e).data = _
        simp only [decRender, if_pos hm, String.data_append]
        rfl
      · by_cases he : e = 0
        · subst he
          obtain ⟨d, r1, hd, hdlt⟩ := hnat m.natAbs
          refine ⟨digitChar d, r1 ++ ['.', '0'], ?_, Or.inr ⟨d, hdlt, rfl⟩⟩
          show (decRender m 0).data = _
          rw [show (decRender m 0).data = (natRender m.natAbs).data ++ ['.', '0'] from by
            simp only [decRender, if_neg hm]
            rfl]
          rw [hd]
          rfl
        · obtain ⟨d, r1, hd, hdlt⟩ := hnat (m.natAbs / 10 ^ e)
          refine ⟨digitChar d,
            r1 ++ '.' :: (padZeros e (natRender (m.natAbs % 10 ^ e))).data, ?_,
            Or.inr ⟨d, hdlt, rfl⟩⟩
          show (decRender m e).data = _
          rw [show (decRender m e).data = (natRender (m.natAbs / 10 ^ e)).data
              ++ '.' :: (padZeros e (natRender (m.natAbs % 10 ^ e))).data from by
            simp only [decRender, if_neg hm, if_neg he]
            simp [String.data_append, show ("." : String).data = ['.'] from rfl,
              show ("" : String).data = ([] : List Char) from rfl, List.append_assoc]]
          rw [hd]
          rfl

/-- A minus sign or digit is none of the characters that open another
kind of JSON value, nor whitespace, nor a closer. -/
theorem numHead_not_special (c0 : Char)
    (h : c0 = '-' ∨ ∃ d, d < 10 ∧ c0 = digitChar d) :
    c0 ≠ 'n' ∧ c0 ≠ 't' ∧ c0 ≠ 'f' ∧ c0 ≠ '"' ∧ c0 ≠ '[' ∧ c0 ≠ '\x7b'
      ∧ isWsChar c0 = false ∧ c0 ≠ ']' ∧ c0 ≠ '\x7d' := by
  rcases h with h | ⟨d, hd, h⟩
  · subst h
    refine ⟨by decide, by decide, by decide, by decide, by decide, by decide,
      by decide, by decide, by decide⟩
  · subst h
    interval_cases d <;>
      exact ⟨by decide, by decide, by decide, by decide, by decide, by decide,
        by decide, by decide, by decide⟩

/-- The first character of a dumped value: never whitespace, never a
closing bracket or brace. -/
theorem jdump_head (ind : Nat) (v : JValue) :
    ∃ c0 r0, jdump ind v = c0 :: r0
      ∧ isWsChar c0 = false ∧ c0 ≠ ']' ∧ c0 ≠ '\x7d' := by
  cases v with
  | null => exact ⟨'n', _, rfl, by decide, by decide, by decide⟩
  | bool b =>
      cases b
      · exact ⟨'f', _, rfl, by decide, by decide, by decide⟩
      · exact ⟨'t', _, rfl, by decide, by decide, by decide⟩
  | num m e f =>
      obtain ⟨c0, r0, hdata, hc⟩ := numRender_head m e f
      obtain ⟨_, _, _, _, _, _, hws, hcl1, hcl2⟩ := numHead_not_special c0 hc
      exact ⟨c0, r0, by simpa [jdump] using hdata, hws, hcl1, hcl2⟩
  | str s => exact ⟨'"', _, rfl, by decide, by decide, by decide⟩
  | arr xs =>
      cases xs with
      | nil => exact ⟨'[', _, rfl, by decide, by decide, by decide⟩
      | cons x xs2 => exact ⟨'[', _, rfl, by decide, by decide, by decide⟩
  | obj fs =>
      cases fs with
      | nil => exact ⟨'\x7b', _, rfl, by decide, by decide, by decide⟩
      | cons g fs2 => exact ⟨'\x7b', _, rfl, by decide, by decide, by decide⟩

/-- Every value weighs at least one. -/
theorem jweight_pos (v : JValue) : 1 ≤ jweight v := by
  cases v <;> simp [jweight]

/-- A non-empty element list has positive weight. -/
theorem jweightList_pos (xs : List JValue) (h : xs ≠ []) : 1 ≤ jweightList xs := by
  cases xs with
  | nil => exact absurd rfl h
  | cons x xs =>
      simp only [jweightList]
      omega

/-- A non-empty field list has positive weight. -/
theorem jweightFields_pos (fs : List (String × JValue)) (h : fs ≠ []) :
    1 ≤ jweightFields fs := by
  cases fs with
  | nil => exact absurd rfl h
  | cons g fs =>
      obtain ⟨k, v⟩ := g
      simp only [jweightFields]
      omega

mutual

/-- A value weighs no more than its dump is long. -/
theorem jweight_le_jdump (ind : Nat) : ∀ (v : JValue), jweight v ≤ (jdump ind v).length
  | .null => by simp [jweight, jdump]
  | .bool b => by cases b <;> simp [jweight, jdump]
  | .num m e f => by
      obtain ⟨c0, r0, hd, _⟩ := numRender_head m e f
      simp [jweight, jdump, hd]
  | .str s => by simp [jweight, jdump, jstrDump]
  | .arr [] => by simp [jweight, jweightList, jdump]
  | .arr (x :: xs) => by
      have h := jweightList_le_jdumpElems (ind + 2) (x :: xs)
      simp only [jweight, jdump, List.length_cons, List.length_append, spaces,
        List.length_replicate]
      omega
  | .obj [] => by simp [jweight, jweightFields, jdump]
  | .obj (g :: fs) => by
      have h := jweightFields_le_jdumpFields (ind + 2) (g :: fs)
      simp only [jweight, jdump, List.length_cons, List.length_append, spaces,
        List.length_replicate]
      omega

/-- An element list weighs no more than its dump is long, plus one. -/
theorem jweightList_le_jdumpElems (ind : Nat) : ∀ (xs : List JValue),
    jweightList xs ≤ (jdumpElems ind xs).length + 1
  | [] => by simp [jweightList]
  | [x] => by
      have h := jweight_le_jdump ind x
      simp only [jweightList, jdumpElems]
      omega
  | x :: y :: ys => by
      have h1 := jweight_le_jdump ind x
      have h2 := jweightList_le_jdumpElems ind (y :: ys)
      simp only [jweightList, jdumpElems, List.length_append, List.length_cons, spaces,
        List.length_replicate] at h2 ⊢
      omega

/-- A field list weighs no more than its dump is long, plus one. -/
theorem jweightFields_le_jdumpFields (ind : Nat) : ∀ (fs : List (String × JValue)),
    jweightFields fs ≤ (jdumpFields ind fs).length + 1
  | [] => by simp [jweightFields]
  | [(k, v)] => by
      have h := jweight_le_jdump ind v
      simp only [jweightFields, jdumpFields, List.length_append, List.length_cons]
      omega
  | (k, v) :: g :: fs => by
      have h1 := jweight_le_jdump ind v
      have h2 := jweightFields_le_jdumpFields ind (g :: fs)
      simp only [jweightFields, jdumpFields, List.length_append, List.length_cons, spaces,
        List.length_replicate] at h2 ⊢
      omega

end


/-- Whitespace characters are neither digits nor the decimal point. -/
theorem wsChar_not_digit (c : Char) (h : isWsChar c = true) :
    c.isDigit = false ∧ c ≠ '.' := by
  have h2 : ((c = ' ' ∨ c = '\n') ∨ c = '\t') ∨ c = '\r' := by
    simpa [isWsChar] using h
  rw [or_assoc, or_assoc] at h2
  rcases h2 with h2 | h2 | h2 | h2 <;> subst h2 <;> exact ⟨by decide, by decide⟩

/-- Whatever whitespace-skipping reveals, the raw input is a number
boundary whenever the revealed head is. -/
theorem numBoundary_of_skipWs (tail rest : List Char) (c : Char)
    (h : skipWs tail = c :: rest) (hc : c.isDigit = false ∧ c ≠ '.') :
    numBoundary tail := by
  cases tail with
  | nil => trivial
  | cons c0 t =>
      by_cases hws : isWsChar c0 = true
      · exact wsChar_not_digit c0 hws
      · have hnw : isWsChar c0 = false := by
          cases hb : isWsChar c0
          · rfl
          · exact absurd hb hws
        have heq : c0 :: t = c :: rest := by
          rw [← skipWs_of_headNotWs (c0 :: t) hnw]
          exact h
        injection heq with h1 h2
        subst h1
        exact hc

/-- Whitespace-skipping leaves a dumped value alone. -/
theorem skipWs_jdump_append (ind : Nat) (v : JValue) (X : List Char) :
    skipWs (jdump ind v ++ X) = jdump ind v ++ X := by
  obtain ⟨c0, r0, hd, hws, _, _⟩ := jdump_head ind v
  rw [hd, List.cons_append]
  exact skipWs_of_headNotWs _ hws

/-- Whitespace-skipping leaves dumped elements alone. -/
theorem skipWs_jdumpElems_cons (ind : Nat) (x : JValue) (xs : List JValue) (X : List Char) :
    skipWs (jdumpElems ind (x :: xs) ++ X) = jdumpElems ind (x :: xs) ++ X := by
  cases xs with
  | nil =>
      rw [show jdumpElems ind [x] = jdump ind x from rfl]
      exact skipWs_jdump_append ind x X
  | cons y ys =>
      rw [show jdumpElems ind (x :: y :: ys) =
        jdump ind x ++ ',' :: '\n' :: spaces ind ++ jdumpElems ind (y :: ys) from rfl]
      simp only [List.append_assoc]
      exact skipWs_jdump_append ind x _

/-- Whitespace-skipping leaves dumped fields alone (they open with a
quote). -/
theorem skipWs_jdumpFields_cons (ind : Nat) (g : String × JValue)
    (fs : List (String × JValue)) (X : List Char) :
    skipWs (jdumpFields ind (g :: fs) ++ X) = jdumpFields ind (g :: fs) ++ X := by
  obtain ⟨k, v⟩ := g
  cases fs with
  | nil =>
      rw [show jdumpFields ind [(k, v)] = jstrDump k ++ ':' :: ' ' :: jdump ind v from rfl,
        show jstrDump k = '"' :: escList k.data ++ ['"'] from rfl]
      simp only [List.cons_append, List.append_assoc]
      exact skipWs_of_headNotWs _ (show isWsChar '"' = false by decide)
  | cons g2 fs2 =>
      rw [show jdumpFields ind ((k, v) :: g2 :: fs2) = jstrDump k ++ ':' :: ' ' :: jdump ind v
          ++ ',' :: '\n' :: spaces ind ++ jdumpFields ind (g2 :: fs2) from rfl,
        show jstrDump k = '"' :: escList k.data ++ ['"'] from rfl]
      simp only [List.cons_append, List.append_assoc]
      exact skipWs_of_headNotWs _ (show isWsChar '"' = false by decide)

/-- One reader step on a string opener. -/
theorem parseVal_step_str (fuel : Nat) (r : List Char) :
    parseVal (fuel + 1) ('"' :: r)
      = (parseStrBody (r.length + 1) r []).map (fun p => (JValue.str p.1, p.2)) := rfl

/-- One reader step on an array opener. -/
theorem parseVal_step_arr (fuel : Nat) (r : List Char) :
    parseVal (fuel + 1) ('[' :: r)
      = match skipWs r with
        | ']' :: r2 => some (.arr [], r2)
        | r2 => (parseElems fuel r2).map (fun p => (JValue.arr p.1, p.2)) := rfl

/-- One reader step on an object opener. -/
theorem parseVal_step_obj (fuel : Nat) (r : List Char) :
    parseVal (fuel + 1) ('\x7b' :: r)
      = match skipWs r with
        | '\x7d' :: r2 => some (.obj [], r2)
        | r2 => (parseFields fuel r2).map (fun p => (JValue.obj p.1, p.2)) := rfl

/-- A head that opens no literal, string or container falls through to
the number reader. -/
theorem parseVal_step_num (fuel : Nat) (c0 : Char) (r : List Char)
    (h1 : c0 ≠ 'n') (h2 : c0 ≠ 't') (h3 : c0 ≠ 'f') (h4 : c0 ≠ '"')
    (h5 : c0 ≠ '[') (h6 : c0 ≠ '\x7b') :
    parseVal (fuel + 1) (c0 :: r) = parseNum (c0 :: r) := by
  unfold parseVal
  split
  · rename_i heq
    injection heq with hx _
    exact absurd hx h1
  · rename_i heq
    injection heq with hx _
    exact absurd hx h2
  · rename_i heq
    injection heq with hx _
    exact absurd hx h3
  · rename_i heq
    injection heq with hx _
    exact absurd hx h4
  · rename_i heq
    injection heq with hx _
    exact absurd hx h5
  · rename_i heq
    injection heq with hx _
    exact absurd hx h6
  · rfl

/-- A dumped non-empty element list opens with its first value\x27s head
character: not whitespace, not a closer. -/
theorem jdumpElems_cons_head (ind : Nat) (x : JValue) (xs : List JValue) :
    ∃ c0 r0, jdumpElems ind (x :: xs) = c0 :: r0
      ∧ isWsChar c0 = false ∧ c0 ≠ ']' ∧ c0 ≠ '\x7d' := by
  obtain ⟨c0, r0, hd, hws, h1, h2⟩ := jdump_head ind x
  cases xs with
  | nil => exact ⟨c0, r0, hd, hws, h1, h2⟩
  | cons y ys =>
      refine ⟨c0, r0 ++ (',' :: '\n' :: (spaces ind ++ jdumpElems ind (y :: ys))), ?_,
        hws, h1, h2⟩
      rw [show jdumpElems ind (x :: y :: ys)
        = jdump ind x ++ ',' :: '\n' :: spaces ind ++ jdumpElems ind (y :: ys) from rfl, hd]
      simp [List.append_assoc]

/-- A dumped non-empty field list opens with the key\x27s quote. -/
theorem jdumpFields_cons_head (ind : Nat) (g : String × JValue)
    (fs : List (String × JValue)) :
    ∃ r0, jdumpFields ind (g :: fs) = '"' :: r0 := by
  obtain ⟨k, v⟩ := g
  cases fs with
  | nil =>
      refine ⟨escList k.data ++ '"' :: ':' :: ' ' :: jdump ind v, ?_⟩
      rw [show jdumpFields ind [(k, v)] = jstrDump k ++ ':' :: ' ' :: jdump ind v from rfl,
        show jstrDump k = '"' :: escList k.data ++ ['"'] from rfl]
      simp [List.append_assoc]
  | cons g2 fs2 =>
      refine ⟨escList k.data ++ '"' :: ':' :: ' ' :: (jdump ind v
        ++ ',' :: '\n' :: (spaces ind ++ jdumpFields ind (g2 :: fs2))), ?_⟩
      rw [show jdumpFields ind ((k, v) :: g2 :: fs2) = jstrDump k ++ ':' :: ' ' :: jdump ind v
          ++ ',' :: '\n' :: spaces ind ++ jdumpFields ind (g2 :: fs2) from rfl,
        show jstrDump k = '"' :: escList k.data ++ ['"'] from rfl]
      simp [List.append_assoc]

/-- Reading back a dump recovers the value: the joint completeness
induction over fuel for values, element lists and field lists. -/
theorem parse_complete : ∀ (fuel : Nat),
    (∀ (v : JValue) (ind : Nat) (rest : List Char), jweight v ≤ fuel →
      jnormal v = true → numBoundary rest →
      parseVal fuel (jdump ind v ++ rest) = some (v, rest))
  ∧ (∀ (xs : List JValue) (ind : Nat) (tail rest : List Char), xs ≠ [] →
      jweightList xs ≤ fuel → jnormalList xs = true → skipWs tail = ']' :: rest →
      parseElems fuel (jdumpElems ind xs ++ tail) = some (xs, rest))
  ∧ (∀ (fs : List (String × JValue)) (ind : Nat) (tail rest : List Char), fs ≠ [] →
      jweightFields fs ≤ fuel → jnormalFields fs = true → skipWs tail = '\x7d' :: rest →
      parseFields fuel (jdumpFields ind fs ++ tail) = some (fs, rest)) := by
  intro fuel
  induction fuel with
  | zero =>
      refine ⟨?_, ?_, ?_⟩
      · intro v ind rest hw _ _
        have h1 := jweight_pos v
        exact absurd hw (by omega)
      · intro xs ind tail rest hne hw _ _
        have h1 := jweightList_pos xs hne
        exact absurd hw (by omega)
      · intro fs ind tail rest hne hw _ _
        have h1 := jweightFields_pos fs hne
        exact absurd hw (by omega)
  | succ fuel ih =>
      obtain ⟨ihV, ihE, ihF⟩ := ih
      refine ⟨?_, ?_, ?_⟩
      · intro v ind rest hw hn hb
        cases v with
        | null => rfl
        | bool b => cases b <;> rfl
        | num m e f =>
            obtain ⟨c0, r0, hd, hc⟩ := numRender_head m e f
            obtain ⟨hc1, hc2, hc3, hc4, hc5, hc6, _, _, _⟩ := numHead_not_special c0 hc
            rw [show jdump ind (JValue.num m e f) = (numRender m e f).data from rfl, hd,
              List.cons_append, parseVal_step_num fuel c0 (r0 ++ rest) hc1 hc2 hc3 hc4 hc5 hc6,
              ← List.cons_append, ← hd]
            exact parseNum_numRender m e f hn rest hb
        | str s =>
            rw [show jdump ind (JValue.str s) = '"' :: escList s.data ++ ['"'] from rfl]
            have hshape : ('"' :: escList s.data ++ ['"']) ++ rest
                = '"' :: (escList s.data ++ '"' :: rest) := by
              simp
            rw [hshape, parseVal_step_str]
            rw [parseStrBody_complete s.data ((escList s.data ++ '"' :: rest).length + 1)
              (by have h1 := escList_length_ge s.data
                  simp only [List.length_append, List.length_cons]
                  omega) [] rest]
            rfl
        | arr xs =>
            cases xs with
            | nil => rfl
            | cons x xs2 =>
                have hshape : jdump ind (JValue.arr (x :: xs2)) ++ rest
                    = '[' :: '\n' :: (spaces (ind + 2) ++ (jdumpElems (ind + 2) (x :: xs2)
                      ++ ('\n' :: (spaces ind ++ (']' :: rest))))) := by
                  rw [show jdump ind (JValue.arr (x :: xs2)) = '[' :: '\n' :: spaces (ind + 2)
                    ++ jdumpElems (ind + 2) (x :: xs2) ++ '\n' :: spaces ind ++ [']'] from rfl]
                  simp [List.append_assoc]
                rw [hshape, parseVal_step_arr]
                have hskip : skipWs ('\n' :: (spaces (ind + 2) ++ (jdumpElems (ind + 2) (x :: xs2)
                    ++ ('\n' :: (spaces ind ++ (']' :: rest))))))
                    = jdumpElems (ind + 2) (x :: xs2)
                      ++ ('\n' :: (spaces ind ++ (']' :: rest))) := by
                  rw [skipWs_newline, skipWs_spaces]
                  exact skipWs_jdumpElems_cons _ _ _ _
                rw [hskip]
                have hE : parseElems fuel (jdumpElems (ind + 2) (x :: xs2)
                    ++ ('\n' :: (spaces ind ++ (']' :: rest)))) = some (x :: xs2, rest) := by
                  refine ihE (x :: xs2) (ind + 2) _ rest (by simp) ?_ ?_ ?_
                  · simp only [jweight] at hw
                    omega
                  · simp only [jnormal] at hn
                    exact hn
                  · rw [skipWs_newline, skipWs_spaces]
                    exact skipWs_of_headNotWs _ (show isWsChar ']' = false by decide)
                obtain ⟨c0, r0, hdE, hws0, hcl0, _⟩ := jdumpElems_cons_head (ind + 2) x xs2
                rw [hdE, List.cons_append]
                split
                · rename_i heq
                  injection heq with hx _
                  exact absurd hx hcl0
                · rw [← List.cons_append, ← hdE, hE]
                  rfl
        | obj fs =>
            cases fs with
            | nil => rfl
            | cons g fs2 =>
                have hshape : jdump ind (JValue.obj (g :: fs2)) ++ rest
                    = '\x7b' :: '\n' :: (spaces (ind + 2) ++ (jdumpFields (ind + 2) (g :: fs2)
                      ++ ('\n' :: (spaces ind ++ ('\x7d' :: rest))))) := by
                  rw [show jdump ind (JValue.obj (g :: fs2)) = '\x7b' :: '\n' :: spaces (ind + 2)
                    ++ jdumpFields (ind + 2) (g :: fs2) ++ '\n' :: spaces ind
                    ++ ['\x7d'] from rfl]
                  simp [List.append_assoc]
                rw [hshape, parseVal_step_obj]
                have hskip : skipWs ('\n' :: (spaces (ind + 2)
                    ++ (jdumpFields (ind + 2) (g :: fs2)
                      ++ ('\n' :: (spaces ind ++ ('\x7d' :: rest))))))
                    = jdumpFields (ind + 2) (g :: fs2)
                      ++ ('\n' :: (spaces ind ++ ('\x7d' :: rest))) := by
                  rw [skipWs_newline, skipWs_spaces]
                  exact skipWs_jdumpFields_cons _ _ _ _
                rw [hskip]
                have hF : parseFields fuel (jdumpFields (ind + 2) (g :: fs2)
                    ++ ('\n' :: (spaces ind ++ ('\x7d' :: rest)))) = some (g :: fs2, rest) := by
                  refine ihF (g :: fs2) (ind + 2) _ rest (by simp) ?_ ?_ ?_
                  · simp only [jweight] at hw
                    omega
                  · simp only [jnormal] at hn
                    exact hn
                  · rw [skipWs_newline, skipWs_spaces]
                    exact skipWs_of_headNotWs _ (show isWsChar '\x7d' = false by decide)
                obtain ⟨r0, hdF⟩ := jdumpFields_cons_head (ind + 2) g fs2
                rw [hdF, List.cons_append]
                split
                · rename_i heq
                  injection heq with hx _
                  exact absurd hx (by decide)
                · rw [← List.cons_append, ← hdF, hF]
                  rfl
      · intro xs ind tail rest hne hw hnl htail
        cases xs with
        | nil => exact absurd rfl hne
        | cons x xs2 =>
            cases xs2 with
            | nil =>
                rw [show jdumpElems ind [x] = jdump ind x from rfl]
                unfold parseElems
                have h1 : parseVal fuel (jdump ind x ++ tail) = some (x, tail) := by
                  refine ihV x ind tail ?_ ?_
                    (numBoundary_of_skipWs tail rest ']' htail ⟨by decide, by decide⟩)
                  · simp only [jweightList] at hw
                    omega
                  · simp only [jnormalList, Bool.and_eq_true] at hnl
                    exact hnl.1
                rw [h1]
                simp only [htail]
            | cons y ys =>
                have hshape : jdumpElems ind (x :: y :: ys) ++ tail
                    = jdump ind x ++ (',' :: '\n' :: (spaces ind
                      ++ (jdumpElems ind (y :: ys) ++ tail))) := by
                  rw [show jdumpElems ind (x :: y :: ys)
                    = jdump ind x ++ ',' :: '\n' :: spaces ind
                      ++ jdumpElems ind (y :: ys) from rfl]
                  simp [List.append_assoc]
                rw [hshape]
                unfold parseElems
                have h1 : parseVal fuel (jdump ind x ++ (',' :: '\n' :: (spaces ind
                    ++ (jdumpElems ind (y :: ys) ++ tail))))
                    = some (x, ',' :: '\n' :: (spaces ind
                      ++ (jdumpElems ind (y :: ys) ++ tail))) := by
                  refine ihV x ind _ ?_ ?_ ⟨by decide, by decide⟩
                  · simp only [jweightList] at hw
                    omega
                  · simp only [jnormalList, Bool.and_eq_true] at hnl
                    exact hnl.1
                have hskip1 : skipWs (',' :: '\n' :: (spaces ind
                    ++ (jdumpElems ind (y :: ys) ++ tail)))
                    = ',' :: '\n' :: (spaces ind ++ (jdumpElems ind (y :: ys) ++ tail)) :=
                  skipWs_of_headNotWs _ (show isWsChar ',' = false by decide)
                have hskip2 : skipWs ('\n' :: (spaces ind ++ (jdumpElems ind (y :: ys) ++ tail)))
                    = jdumpElems ind (y :: ys) ++ tail := by
                  rw [skipWs_newline, skipWs_spaces]
                  exact skipWs_jdumpElems_cons _ _ _ _
                have h2 : parseElems fuel (jdumpElems ind (y :: ys) ++ tail)
                    = some (y :: ys, rest) := by
                  refine ihE (y :: ys) ind tail rest (by simp) ?_ ?_ htail
                  · have h3 := jweight_pos x
                    simp only [jweightList] at hw ⊢
                    omega
                  · simp only [jnormalList, Bool.and_eq_true] at hnl ⊢
                    exact hnl.2
                rw [h1]
                simp only [hskip1, hskip2, h2]
      · intro fs ind tail rest hne hw hnf htail
        cases fs with
        | nil => exact absurd rfl hne
        | cons g fs2 =>
            obtain ⟨k, v⟩ := g
            cases fs2 with
            | nil =>
                have hshape : jdumpFields ind [(k, v)] ++ tail
                    = '"' :: (escList k.data ++ '"' :: ':' :: ' ' :: (jdump ind v ++ tail)) := by
                  rw [show jdumpFields ind [(k, v)]
                    = jstrDump k ++ ':' :: ' ' :: jdump ind v from rfl,
                    show jstrDump k = '"' :: escList k.data ++ ['"'] from rfl]
                  simp [List.append_assoc]
                rw [hshape]
                unfold parseFields
                have hkey : parseStrBody
                    ((escList k.data ++ '"' :: ':' :: ' ' :: (jdump ind v ++ tail)).length + 1)
                    (escList k.data ++ '"' :: ':' :: ' ' :: (jdump ind v ++ tail)) []
                    = some (k, ':' :: ' ' :: (jdump ind v ++ tail)) := by
                  rw [parseStrBody_complete k.data _
                    (by have h1 := escList_length_ge k.data
                        simp only [List.length_append, List.length_cons]
                        omega) [] _]
                  rfl
                have hsk1 : skipWs (':' :: ' ' :: (jdump ind v ++ tail))
                    = ':' :: ' ' :: (jdump ind v ++ tail) :=
                  skipWs_of_headNotWs _ (show isWsChar ':' = false by decide)
                have hsk2 : skipWs (' ' :: (jdump ind v ++ tail)) = jdump ind v ++ tail := by
                  rw [show (' ' :: (jdump ind v ++ tail))
                    = spaces 1 ++ (jdump ind v ++ tail) from rfl, skipWs_spaces]
                  exact skipWs_jdump_append ind v tail
                have hv : parseVal fuel (jdump ind v ++ tail) = some (v, tail) := by
                  refine ihV v ind tail ?_ ?_
                    (numBoundary_of_skipWs tail rest '\x7d' htail ⟨by decide, by decide⟩)
                  · simp only [jweightFields] at hw
                    omega
                  · simp only [jnormalFields, Bool.and_eq_true] at hnf
                    exact hnf.1
                simp only [hkey, hsk1, hsk2, hv, htail]
            | cons g2 fs3 =>
                have hshape : jdumpFields ind ((k, v) :: g2 :: fs3) ++ tail
                    = '"' :: (escList k.data ++ '"' :: ':' :: ' ' :: (jdump ind v
                      ++ (',' :: '\n' :: (spaces ind
                        ++ (jdumpFields ind (g2 :: fs3) ++ tail))))) := by
                  rw [show jdumpFields ind ((k, v) :: g2 :: fs3)
                    = jstrDump k ++ ':' :: ' ' :: jdump ind v
                      ++ ',' :: '\n' :: spaces ind ++ jdumpFields ind (g2 :: fs3) from rfl,
                    show jstrDump k = '"' :: escList k.data ++ ['"'] from rfl]
                  simp [List.append_assoc]
                rw [hshape]
                unfold parseFields
                have hkey : parseStrBody
                    ((escList k.data ++ '"' :: ':' :: ' ' :: (jdump ind v
                      ++ (',' :: '\n' :: (spaces ind
                        ++ (jdumpFields ind (g2 :: fs3) ++ tail))))).length + 1)
                    (escList k.data ++ '"' :: ':' :: ' ' :: (jdump ind v
                      ++ (',' :: '\n' :: (spaces ind
                        ++ (jdumpFields ind (g2 :: fs3) ++ tail))))) []
                    = some (k, ':' :: ' ' :: (jdump ind v
                      ++ (',' :: '\n' :: (spaces ind
                        ++ (jdumpFields ind (g2 :: fs3) ++ tail))))) := by
                  rw [parseStrBody_complete k.data _
                    (by have h1 := escList_length_ge k.data
                        simp only [List.length_append, List.length_cons]
                        omega) [] _]
                  rfl
                have hsk1 : skipWs (':' :: ' ' :: (jdump ind v
                    ++ (',' :: '\n' :: (spaces ind ++ (jdumpFields ind (g2 :: fs3) ++ tail)))))
                    = ':' :: ' ' :: (jdump ind v ++ (',' :: '\n' :: (spaces ind
                      ++ (jdumpFields ind (g2 :: fs3) ++ tail)))) :=
                  skipWs_of_headNotWs _ (show isWsChar ':' = false by decide)
                have hsk2 : skipWs (' ' :: (jdump ind v ++ (',' :: '\n' :: (spaces ind
                    ++ (jdumpFields ind (g2 :: fs3) ++ tail)))))
                    = jdump ind v ++ (',' :: '\n' :: (spaces ind
                      ++ (jdumpFields ind (g2 :: fs3) ++ tail))) := by
                  rw [show (' ' :: (jdump ind v ++ (',' :: '\n' :: (spaces ind
                    ++ (jdumpFields ind (g2 :: fs3) ++ tail)))))
                    = spaces 1 ++ (jdump ind v ++ (',' :: '\n' :: (spaces ind
                      ++ (jdumpFields ind (g2 :: fs3) ++ tail)))) from rfl, skipWs_spaces]
                  exact skipWs_jdump_append ind v _
                have hv : parseVal fuel (jdump ind v ++ (',' :: '\n' :: (spaces ind
                    ++ (jdumpFields ind (g2 :: fs3) ++ tail))))
                    = some (v, ',' :: '\n' :: (spaces ind
                      ++ (jdumpFields ind (g2 :: fs3) ++ tail))) := by
                  refine ihV v ind _ ?_ ?_ ⟨by decide, by decide⟩
                  · simp only [jweightFields] at hw
                    omega
                  · simp only [jnormalFields, Bool.and_eq_true] at hnf
                    exact hnf.1
                have hsk3 : skipWs (',' :: '\n' :: (spaces ind
                    ++ (jdumpFields ind (g2 :: fs3) ++ tail)))
                    = ',' :: '\n' :: (spaces ind ++ (jdumpFields ind (g2 :: fs3) ++ tail)) :=
                  skipWs_of_headNotWs _ (show isWsChar ',' = false by decide)
                have hsk4 : skipWs ('\n' :: (spaces ind ++ (jdumpFields ind (g2 :: fs3) ++ tail)))
                    = jdumpFields ind (g2 :: fs3) ++ tail := by
                  rw [skipWs_newline, skipWs_spaces]
                  exact skipWs_jdumpFields_cons _ _ _ _
                have hrec : parseFields fuel (jdumpFields ind (g2 :: fs3) ++ tail)
                    = some (g2 :: fs3, rest) := by
                  refine ihF (g2 :: fs3) ind tail rest (by simp) ?_ ?_ htail
                  · have h3 := jweight_pos v
                    simp only [jweightFields] at hw ⊢
                    omega
                  · simp only [jnormalFields, Bool.and_eq_true] at hnf ⊢
                    exact hnf.2
                simp only [hkey, hsk1, hsk2, hv, hsk3, hsk4, hrec]

/-- Parsing the dump of any canonical-form value recovers it exactly. -/
theorem parseJson_jsonDumps (v : JValue) (h : jnormal v = true) :
    parseJson (jsonDumps v) = some v := by
  have hskip : skipWs (jdump 0 v) = jdump 0 v := by
    have h1 := skipWs_jdump_append 0 v []
    simpa using h1
  have hfuel : jweight v ≤ (jdump 0 v).length + 1 := by
    have h1 := jweight_le_jdump 0 v
    omega
  have hmain := (parse_complete ((jdump 0 v).length + 1)).1 v 0 [] hfuel h trivial
  rw [List.append_nil] at hmain
  have hstep : parseJson (jsonDumps v)
      = match parseVal ((skipWs (jdump 0 v)).length + 1) (skipWs (jdump 0 v)) with
        | some (w, r) => if skipWs r = [] then some w else none
        | none => none := rfl
  rw [hstep, hskip, hmain]
  simp [skipWs]

/-- C7: for each of the three known resource URIs, a `read_resource`
whose upstream fetch decodes to payload `v` (in the canonical form
`response.json()` produces) answers exactly `json.dumps(v, indent=2)`
after its single recorded request, and parsing that text back yields
exactly `v`: a pure passthrough, differing only in whitespace. -/
theorem read_resource_roundtrip :
    ∀ (o : Upstream) (v : JValue), jnormal v = true →
      ((o.fetch weatherResUrl = .ok v →
        (read_resource "weather://current").run o = (.ok (jsonDumps v), [weatherResUrl]))
      ∧ (o.fetch nasaResUrl = .ok v →
        (read_resource "nasa://apod").run o = (.ok (jsonDumps v), [nasaResUrl]))
      ∧ (o.fetch jokesResUrl = .ok v →
        (read_resource "jokes://random").run o = (.ok (jsonDumps v), [jokesResUrl]))
      ∧ parseJson (jsonDumps v) = some v) := by
  intro o v hn
  refine ⟨?_, ?_, ?_, parseJson_jsonDumps v hn⟩
  · intro hfetch
    simp [read_resource, Eff.run, effBind_run, httpGet, hfetch, effPure_run]
  · intro hfetch
    simp [read_resource, Eff.run, effBind_run, httpGet, hfetch, effPure_run]
  · intro hfetch
    simp [read_resource, Eff.run, effBind_run, httpGet, hfetch, effPure_run]

/-- Witness for C7: the concrete payload is canonical, a resource read
returns its dump after one request, and the dump parses back to it. -/
theorem read_resource_roundtrip_witness :
    jnormal resPayload = true
    ∧ (read_resource "weather://current").run oracleRes
        = (.ok (jsonDumps resPayload), [weatherResUrl])
    ∧ parseJson (jsonDumps resPayload) = some resPayload :=
  ⟨rfl, (read_resource_roundtrip oracleRes resPayload rfl).1 rfl,
    (read_resource_roundtrip oracleRes resPayload rfl).2.2.2⟩
